import Mathlib

/-!
Verification of the lambdamoo-db-py codec (src/lambdamoo_db/) against its
natural-language specification.

The Python source is shallowly embedded:

* `PyValue` is the runtime value universe handled by `Reader.readValue` /
  `Writer.writeValue` (src/lambdamoo_db/reader.py, writer.py).  Python class
  objects that leak into value position (the bare `Clear` class stored by
  `MooDatabase.set_property`) are a distinct constructor `clearClass`.
* Python floats are carried by their canonical text form (`PyFloat`): the
  writer formats a float with 19 significant digits, which the spec states is
  lossless for IEEE-754 doubles, so a finite double is represented here by
  that canonical string; the distinguished non-finite value nan keeps its own
  constructor.  This is the only place where floating point is abstracted.
* The byte stream is a `String`; reading opens the file in text mode with
  universal-newline translation (every CR, LF or CR-LF becomes one line
  break), modelled by `uLines`.  Writing appends one LF per `write` call
  (writer.py `writeString`), modelled by `render`.
* The reader is a state-and-error monad `RM` over the translated line list;
  `Reader.parse_error` raises an exception string carrying filename and line
  number, while bare Python failures (`int(...)`, attrs constructor arity)
  surface as `PyErr.valueError` / `PyErr.typeError` without that context.
* Unbounded loops (`readValue` on nested containers, `readCode`,
  `readAnonObjects`) take a fuel argument; exhausted fuel is reported as
  `PyErr.fuel`, and every theorem below instantiates or bounds the fuel so
  that this case is unreachable on the runs of interest.
-/

/-- Errors a load or property operation can surface.  `exception` is what
`Reader.parse_error` raises (message already formatted with filename and line
number); `valueError`, `typeError`, `keyError`, `indexError` and
`assertionError` are bare Python exceptions without that context; `fuel`
marks exhausted fuel in the model of an unbounded Python loop. -/
inductive PyErr where
  | exception (msg : String)
  | valueError (msg : String)
  | typeError (msg : String)
  | keyError (msg : String)
  | indexError (msg : String)
  | attributeError (msg : String)
  | assertionError
  | fuel
  deriving Repr, DecidableEq

/-- Python float as handled by the codec.  A finite double (including the
infinities, whose text forms are inf and -inf) is represented by its
canonical 19-significant-digit text, which writer.py `writeFloat` emits and
`float(...)` parses back to the same double; nan is kept apart because its
text form is the fixed string nan. -/
inductive PyFloat where
  | nan
  | finite (lit : String)
  deriving Repr, DecidableEq

/-- The runtime value universe of reader.py `readValue` and writer.py
`writeValue`.  `int`, `obj`, `err`, `anon`, `catch` and `bool` are all
subclasses of the Python int; `none` is the Python None returned by the NONE
branch; `clear` is an instance of database.py `Clear`; `clearClass` is the
bare class object that `set_property` stores; `waifref` is
`WaifReference(index)`. -/
inductive PyValue where
  | int (i : Int)
  | str (s : String)
  | obj (i : Int)
  | anon (i : Int)
  | err (i : Int)
  | float (f : PyFloat)
  | list (xs : List PyValue)
  | map (xs : List (PyValue × PyValue))
  | bool (b : Bool)
  | none
  | clear
  | clearClass
  | Catch (i : Int)
  | waifref (i : Int)

/-! ## Decimal integers and line discipline -/

/-- Decimal digit character for a value below ten. -/
def digitChar (d : Nat) : Char := Char.ofNat (48 + d)

/-- Decimal digits of a number, least significant first, with a structural
fuel that any value at least the number itself satisfies. -/
def natDigitsAux : Nat → Nat → List Char
  | _, 0 => []
  | 0, _ + 1 => []
  | fuel + 1, n + 1 => digitChar ((n + 1) % 10) :: natDigitsAux fuel ((n + 1) / 10)

/-- Decimal digits of a positive number, least significant first. -/
def natDigitsRev (n : Nat) : List Char := natDigitsAux n n

theorem natDigitsAux_stable : ∀ f1 f2 n, n ≤ f1 → n ≤ f2 →
    natDigitsAux f1 n = natDigitsAux f2 n := by
  intro f1
  induction f1 with
  | zero => intro f2 n h1 _; interval_cases n; cases f2 <;> rfl
  | succ g ih =>
    intro f2 n h1 h2
    match n, f2 with
    | 0, f2 => cases f2 <;> rfl
    | m + 1, h + 1 =>
      show digitChar _ :: natDigitsAux g ((m + 1) / 10)
        = digitChar _ :: natDigitsAux h ((m + 1) / 10)
      rw [ih h ((m + 1) / 10) (by omega) (by omega)]

theorem natDigitsRev_succ (m : Nat) : natDigitsRev (m + 1)
    = digitChar ((m + 1) % 10) :: natDigitsRev ((m + 1) / 10) := by
  show digitChar _ :: natDigitsAux m ((m + 1) / 10) = _
  rw [natDigitsRev, natDigitsAux_stable m ((m + 1) / 10) ((m + 1) / 10) (by omega) le_rfl]

/-- Decimal text of a natural number, as Python str produces it. -/
def natToStr (n : Nat) : String :=
  if n = 0 then "0" else String.mk (natDigitsRev n).reverse

/-- Decimal text of an integer: Python str(i), also the d format code. -/
def intToStr (i : Int) : String :=
  if i < 0 then "-" ++ natToStr i.natAbs else natToStr i.natAbs

/-- Numeric value of a decimal digit character, if it is one. -/
def digitVal? (c : Char) : Option Nat :=
  if 48 ≤ c.toNat ∧ c.toNat ≤ 57 then some (c.toNat - 48) else none

/-- Accumulating decimal evaluation of a digit list; none on a non-digit. -/
def digitsVal : List Char → Nat → Option Nat
  | [], acc => some acc
  | c :: t, acc =>
    match digitVal? c with
    | some d => digitsVal t (acc * 10 + d)
    | none => Option.none

/-- Value of a nonempty all-digit character list. -/
def digitsNE : List Char → Option Nat
  | [] => Option.none
  | l => digitsVal l 0

/-- Model of the Python int(...) conversion (and of the d field of the
parse templates): an optional single sign followed by one or more decimal
digits.  The exotic inputs Python would additionally accept (surrounding
whitespace, underscores, the 0x/0o/0b forms of the parse library) are never
produced by the writer and are not modelled. -/
def pyIntOf? (s : String) : Option Int :=
  match s.toList with
  | [] => Option.none
  | c :: t =>
    if c = '-' then
      match digitsNE t with
      | some n => some (-(n : Int))
      | none => Option.none
    else if c = '+' then
      match digitsNE t with
      | some n => some ((n : Int))
      | none => Option.none
    else
      match digitsNE (c :: t) with
      | some n => some ((n : Int))
      | none => Option.none

/-- Model of a d+ regular-expression field: digits only, no sign. -/
def pyNatOf? (s : String) : Option Nat := digitsNE s.toList

/-- True when the string contains neither LF nor CR, so that writing it as
one line reads back as the same single line. -/
def cleanLine (s : String) : Bool :=
  s.toList.all fun c => !(c = '\n' || c = '\r')

/-- Byte stream produced by a sequence of writer calls, one LF appended per
call (writer.py `write` via `writeString`). -/
def render : List String → String
  | [] => ""
  | s :: t => s ++ "\n" ++ render t

/-- Universal-newline splitting, as Python text mode performs when the
reader opens the file: CR-LF, CR and LF each end a line; a final segment
without a terminator is still a line. -/
def uLinesAux : List Char → List Char → List (List Char)
  | [], acc => if acc = [] then [] else [acc.reverse]
  | '\r' :: '\n' :: t, acc => acc.reverse :: uLinesAux t []
  | '\r' :: t, acc => acc.reverse :: uLinesAux t []
  | '\n' :: t, acc => acc.reverse :: uLinesAux t []
  | c :: t, acc => uLinesAux t (c :: acc)

/-- The logical lines the reader sees for a given byte stream.  The
rstrip of CR and LF performed by reader.py `readString` is the identity
after this translation, since no CR or LF survives it. -/
def uLines (s : String) : List String :=
  (uLinesAux s.toList []).map fun l => String.mk l

theorem digitsVal_append (a b : List Char) (acc : Nat) :
    digitsVal (a ++ b) acc =
      match digitsVal a acc with
      | some m => digitsVal b m
      | none => Option.none := by
  induction a generalizing acc with
  | nil => simp [digitsVal]
  | cons c t ih =>
    simp only [List.cons_append, digitsVal]
    cases digitVal? c with
    | none => simp
    | some d => simp [ih]

theorem digitVal?_digitChar : ∀ d, d < 10 → digitVal? (digitChar d) = some d := by
  decide

theorem digitChar_ne_dash : ∀ d, d < 10 → digitChar d ≠ '-' ∧ digitChar d ≠ '+' := by
  decide

theorem natDigitsRev_mem {n : Nat} {c : Char} (h : c ∈ natDigitsRev n) :
    ∃ d, d < 10 ∧ c = digitChar d := by
  induction n using Nat.strong_induction_on with
  | _ n ih =>
    match n, h with
    | 0, h => exact absurd h (by rw [show natDigitsRev 0 = [] from rfl]; simp)
    | m + 1, h =>
      rw [natDigitsRev_succ] at h
      rcases List.mem_cons.mp h with h | h
      · exact ⟨(m + 1) % 10, Nat.mod_lt _ (by omega), h⟩
      · exact ih ((m + 1) / 10) (Nat.div_lt_self (Nat.succ_pos m) (by omega)) h

theorem digitsVal_natDigitsRev (n : Nat) (acc : Nat) :
    digitsVal (natDigitsRev n).reverse acc =
      some (acc * 10 ^ (natDigitsRev n).length + n) := by
  induction n using Nat.strong_induction_on generalizing acc with
  | _ n ih =>
    match n with
    | 0 => rw [show natDigitsRev 0 = [] from rfl]; simp [digitsVal]
    | m + 1 =>
      rw [natDigitsRev_succ]
      simp only [List.reverse_cons, List.length_cons]
      rw [digitsVal_append, ih ((m + 1) / 10) (Nat.div_lt_self (Nat.succ_pos m) (by omega))]
      simp only [digitsVal, digitVal?_digitChar _ (Nat.mod_lt _ (by omega))]
      congr 1
      rw [pow_succ]
      have hdm : (m + 1) / 10 * 10 + (m + 1) % 10 = m + 1 := by omega
      calc (acc * 10 ^ (natDigitsRev ((m + 1) / 10)).length + (m + 1) / 10) * 10
            + (m + 1) % 10
          = acc * (10 ^ (natDigitsRev ((m + 1) / 10)).length * 10)
            + ((m + 1) / 10 * 10 + (m + 1) % 10) := by ring
        _ = acc * (10 ^ (natDigitsRev ((m + 1) / 10)).length * 10) + (m + 1) := by
            rw [hdm]

theorem natDigitsRev_ne_nil {n : Nat} (h : 0 < n) : natDigitsRev n ≠ [] := by
  match n, h with
  | m + 1, _ => rw [natDigitsRev_succ]; simp

theorem digitsNE_toList_natToStr (n : Nat) : digitsNE (natToStr n).toList = some n := by
  rcases Nat.eq_zero_or_pos n with h0 | hp
  · subst h0; decide
  · rw [natToStr, if_neg (by omega)]
    have hne : (natDigitsRev n).reverse ≠ [] := by
      simpa using natDigitsRev_ne_nil hp
    match hrev : (natDigitsRev n).reverse, hne with
    | c :: t, _ =>
      have : digitsNE (c :: t) = digitsVal (c :: t) 0 := rfl
      rw [show (String.mk (c :: t)).toList = c :: t from rfl, this, ← hrev,
        digitsVal_natDigitsRev]
      simp

theorem head_natToStr_not_sign {n : Nat} {c : Char} {t : List Char}
    (h : (natToStr n).toList = c :: t) : c ≠ '-' ∧ c ≠ '+' := by
  rcases Nat.eq_zero_or_pos n with h0 | hp
  · subst h0
    have : (natToStr 0).toList = ['0'] := by decide
    rw [this] at h
    cases h
    decide
  · rw [natToStr, if_neg (by omega)] at h
    have hc : c ∈ (natDigitsRev n).reverse := by
      rw [show (String.mk (natDigitsRev n).reverse).toList
        = (natDigitsRev n).reverse from rfl] at h
      rw [h]; simp
    obtain ⟨d, hd, rfl⟩ := natDigitsRev_mem (List.mem_reverse.mp hc)
    exact digitChar_ne_dash d hd

theorem pyIntOf?_intToStr (i : Int) : pyIntOf? (intToStr i) = some i := by
  rcases lt_or_le i 0 with hneg | hpos
  · rw [intToStr, if_pos hneg]
    have hsplit : (("-" : String) ++ natToStr i.natAbs).toList
        = '-' :: (natToStr i.natAbs).toList := rfl
    simp only [pyIntOf?, hsplit, if_pos rfl, digitsNE_toList_natToStr]
    have hval : -((i.natAbs : Nat) : Int) = i := by omega
    rw [hval]
    simp
  · rw [intToStr, if_neg (by omega)]
    have hne : (natToStr i.natAbs).toList ≠ [] := by
      intro h
      have := digitsNE_toList_natToStr i.natAbs
      rw [h] at this
      simp [digitsNE] at this
    match hl : (natToStr i.natAbs).toList, hne with
    | c :: t, _ =>
      obtain ⟨hc1, hc2⟩ := head_natToStr_not_sign hl
      simp only [pyIntOf?, hl, if_neg hc1, if_neg hc2]
      rw [← hl, digitsNE_toList_natToStr]
      have hval : (((i.natAbs : Nat) : Int)) = i := by omega
      show some ((i.natAbs : Nat) : Int) = some i
      rw [hval]

theorem uLinesAux_clean_line {l : List Char} (hl : ∀ c ∈ l, ¬(c = '\n' ∨ c = '\r'))
    (rest acc : List Char) :
    uLinesAux (l ++ '\n' :: rest) acc = (acc.reverse ++ l) :: uLinesAux rest [] := by
  induction l generalizing acc with
  | nil => simp [uLinesAux]
  | cons c t ih =>
    have hc : ¬(c = '\n' ∨ c = '\r') := hl c (by simp)
    have ht : ∀ x ∈ t, ¬(x = '\n' ∨ x = '\r') := fun x hx => hl x (by simp [hx])
    rw [List.cons_append, show uLinesAux (c :: (t ++ '\n' :: rest)) acc
      = uLinesAux (t ++ '\n' :: rest) (c :: acc) by
        rw [uLinesAux.eq_def]
        split <;> simp_all]
    rw [ih ht]
    simp

theorem uLines_render {ls : List String} (h : ∀ s ∈ ls, cleanLine s = true) :
    uLines (render ls) = ls := by
  induction ls with
  | nil => rfl
  | cons s t ih =>
    have hs : ∀ c ∈ s.toList, ¬(c = '\n' ∨ c = '\r') := by
      have := h s (by simp)
      simp only [cleanLine, List.all_eq_true] at this
      intro c hc
      have := this c hc
      simp only [Bool.not_eq_eq_eq_not, Bool.not_true, Bool.or_eq_false_iff] at this
      push_neg
      constructor <;> intro he <;> subst he <;> simp_all [decide_eq_false_iff_not]
    have hstream : (render (s :: t)).toList = s.toList ++ '\n' :: (render t).toList := by
      rw [render]
      have h1 : ((s ++ "\n") ++ render t).toList
          = (s.toList ++ ['\n']) ++ (render t).toList := rfl
      rw [h1, List.append_assoc]
      rfl
    rw [uLines, hstream, uLinesAux_clean_line hs]
    simp only [List.reverse_nil, List.nil_append, List.map_cons]
    have h2 : String.mk s.toList = s := by cases s; rfl
    have h3 := ih fun x hx => h x (by simp [hx])
    rw [uLines] at h3
    rw [h2, h3]

/-! ## Reader state and monad

The reader walks the translated line list and counts consumed lines
(reader.py `Reader.__init__` keeps `self.line`, incremented once per
`readString`; `readline` past the end of file yields the empty string). -/

structure RdSt where
  rest : List String
  line : Nat
  deriving Repr, DecidableEq

def RM (α : Type) : Type := RdSt → Except PyErr (α × RdSt)

instance : Monad RM where
  pure a := fun st => .ok (a, st)
  bind m f := fun st =>
    match m st with
    | .ok (a, st2) => f a st2
    | .error e => .error e

/-- Raise a bare Python exception (no filename or line context). -/
def rerr {α : Type} (e : PyErr) : RM α := fun _ => .error e

/-- Model of reader.py `parse_error`: the message carries the filename and
the current line counter. -/
def parseError {α : Type} (fn msg : String) : RM α := fun st =>
  .error (.exception ("Parse Error: " ++ fn ++ ":" ++ natToStr st.line ++ " : " ++ msg))

/-- Model of reader.py `readString`: one line, counter incremented; the
rstrip of CR and LF is the identity on universally translated lines. -/
def readString : RM String := fun st =>
  match st.rest with
  | [] => .ok ("", ⟨[], st.line + 1⟩)
  | l :: t => .ok (l, ⟨t, st.line + 1⟩)

/-- Model of reader.py `readInt`: int(...) of the next line; a non-integer
line raises a bare ValueError. -/
def readInt : RM Int := do
  let s ← readString
  match pyIntOf? s with
  | some i => pure i
  | none => rerr (.valueError ("invalid literal for int() with base 10: " ++ s))

/-- Model of reader.py `readObjnum`: ObjNum(...) of the next line, which is
the int(...) conversion of the int subclass ObjNum. -/
def readObjnum : RM Int := do
  let s ← readString
  match pyIntOf? s with
  | some i => pure i
  | none => rerr (.valueError ("invalid literal for int() with base 10: " ++ s))

/-- Model of the Python float(...) conversion as far as the codec exercises
it: the empty string raises ValueError, the text nan denotes the nan value
and any other line stands for the finite double it canonically denotes (see
`PyFloat`).  Python would also accept case variants and surrounding
whitespace, which the writer never emits. -/
def pyFloatOf? (s : String) : Option PyFloat :=
  if s = "" then none
  else if s = "nan" then some PyFloat.nan
  else some (PyFloat.finite s)

/-- Model of reader.py `readFloat`. -/
def readFloat : RM PyFloat := do
  let s ← readString
  match pyFloatOf? s with
  | some f => pure f
  | none => rerr (.valueError ("could not convert string to float: " ++ s))

/-- Model of reader.py `readBool`: bool(readInt()). -/
def readBool : RM Bool := do
  let i ← readInt
  pure (decide (i ≠ 0))

/-- Model of reader.py `readAnon`: an oid of -1 is a parse error, any other
oid yields the int subclass Anon. -/
def readAnon (fn : String) : RM PyValue := do
  let oid ← readInt
  if oid = -1 then parseError fn "Not sure what to do with a -1 anon yet"
  else pure (.anon oid)

/-- Match for the waif_header template flag-letters, one space, d-integer
(templates.py waif_header). -/
def matchWaifHeader (s : String) : Option (String × Int) :=
  let cs := s.toList
  let flag := cs.takeWhile (fun c => c.isAlpha)
  match cs.dropWhile (fun c => c.isAlpha) with
  | ' ' :: t =>
    if flag.isEmpty then none
    else
      match pyIntOf? (String.mk t) with
      | some i => some (String.mk flag, i)
      | none => none
  | _ => none

/-- Model of reader.py `readWaif`.  The reference path (flag r) consumes one
terminator line and yields a WaifReference.  On any other flag the source
reads the class and owner obj lines and then executes
`Waif(_class, owner, props)`: database.py defines Waif with four required
fields (waif_class, owner, prop_indexes, props), so this call raises
TypeError before the propdefs length, the property loop, or the
`db.waifs[index]` store can run; everything after that line is dead code. -/
def readWaif (fn : String) : RM PyValue := do
  let header ← readString
  match matchWaifHeader header with
  | Option.none => parseError fn "Invalid waif header"
  | some (flag, index) =>
    if flag = "r" then do
      let _terminator ← readString
      pure (.waifref index)
    else do
      let _class ← readObjnum
      let _owner ← readObjnum
      rerr (.typeError "Waif.__init__() missing 1 required positional argument: props")

/-- Python hashability of a codec value: lists and dicts are unhashable, and
so is WaifReference (an attrs class with eq and no hash). -/
def pyHashable : PyValue → Bool
  | .list _ => false
  | .map _ => false
  | .waifref _ => false
  | _ => true

/-- Numeric value of an int-subclass instance (int, bool, ObjNum, Err, Anon,
_Catch), used where Python compares or hashes them interchangeably. -/
def intLikeVal : PyValue → Option Int
  | .int i => some i
  | .obj i => some i
  | .err i => some i
  | .anon i => some i
  | .Catch i => some i
  | .bool b => some (if b then 1 else 0)
  | _ => Option.none

/-- Python equality between hashable codec scalars, as the dict machinery
uses it: int subclasses compare by numeric value, strings by content, None
to None, the Clear class object to itself; a Clear instance is unequal even
to itself (database.py Clear defines no custom equality, so instances
compare by identity and the reader always holds fresh instances); nan is
unequal to everything.  Approximation: a finite float is equal only to the
float with the same canonical text, so the Python equalities between floats
and ints (such as 1.0 == 1) are not modelled, and no theorem below feeds a
float and an int-subclass key into the same dict. -/
def pyEqB (a b : PyValue) : Bool :=
  match intLikeVal a, intLikeVal b with
  | some x, some y => decide (x = y)
  | _, _ =>
    match a, b with
    | .str s, .str t => decide (s = t)
    | .none, .none => true
    | .clearClass, .clearClass => true
    | .float (.finite s), .float (.finite t) => decide (s = t)
    | _, _ => false

/-- Python dict insertion: an existing equal key keeps its position (and its
key object) and has its value replaced; otherwise the pair is appended. -/
def dictInsert (m : List (PyValue × PyValue)) (k v : PyValue) : List (PyValue × PyValue) :=
  match m with
  | [] => [(k, v)]
  | (k0, v0) :: t => if pyEqB k0 k then (k0, v) :: t else (k0, v0) :: dictInsert t k v

/-! ## The tagged value codec (reader.py readValue, writer.py writeValue) -/

/-- Loop of reader.py `readList`: run the given element reader the given
number of times, accumulating in order. -/
def readSeq (rv : RM PyValue) : Nat → List PyValue → RM (List PyValue)
  | 0, acc => pure acc.reverse
  | n + 1, acc => do
    let v ← rv
    readSeq rv n (v :: acc)

/-- Loop of reader.py `readMap`: read key then value and perform the Python
dict insertion; an unhashable key raises TypeError as the subscript
assignment would. -/
def readMapSeq (rv : RM PyValue) :
    Nat → List (PyValue × PyValue) → RM (List (PyValue × PyValue))
  | 0, acc => pure acc
  | n + 1, acc => do
    let k ← rv
    let v ← rv
    if pyHashable k then readMapSeq rv n (dictInsert acc k v)
    else rerr (.typeError "unhashable type")

/-- Model of reader.py `readValue`.  The first argument is the filename, the
second a fuel bound on the depth of nested readValue invocations (the Python
recursion is bounded only by the input), the third the known_type keyword:
when present no tag line is consumed.  Tag dispatch follows the match
statement of the source with the MooTypes values of enums.py: INT 0, OBJ 1,
STR 2, ERR 3, LIST 4, CLEAR 5, NONE 6, _CATCH 7, _FINALLY 8, FLOAT 9,
MAP 10, ANON 12, WAIF 13, BOOL 14.  A negative declared length or item
count runs the container loop zero times, as the Python range does. -/
def readValue (fn : String) : Nat → Option Int → RM PyValue
  | 0, _ => rerr .fuel
  | fuel + 1, known => do
    let valType ← match known with
      | some t => (pure t : RM Int)
      | Option.none => readInt
    if valType = 2 then do
      let s ← readString
      pure (.str s)
    else if valType = 1 then do
      let i ← readObjnum
      pure (.obj i)
    else if valType = 12 then readAnon fn
    else if valType = 0 then do
      let i ← readInt
      pure (.int i)
    else if valType = 9 then do
      let f ← readFloat
      pure (.float f)
    else if valType = 3 then do
      let i ← readInt
      pure (.err i)
    else if valType = 4 then do
      let len ← readInt
      let vs ← readSeq (readValue fn fuel Option.none) len.toNat []
      pure (.list vs)
    else if valType = 5 then pure .clear
    else if valType = 6 then pure .none
    else if valType = 10 then do
      let items ← readInt
      let ps ← readMapSeq (readValue fn fuel Option.none) items.toNat []
      pure (.map ps)
    else if valType = 14 then do
      let b ← readBool
      pure (.bool b)
    else if valType = 7 then do
      let i ← readInt
      pure (.Catch i)
    else if valType = 8 then do
      let i ← readInt
      pure (.int i)
    else if valType = 13 then readWaif fn
    else parseError fn ("unknown type " ++ intToStr valType)

/-- Concatenated output of a writer body run over a list (the for loops of
writer.py `writeCollection`, `writeList`, `writeMap`). -/
def writeSeq {a : Type} (w : a → Except PyErr (List String)) :
    List a → Except PyErr (List String)
  | [] => .ok []
  | x :: t => do
    let h ← w x
    let r ← writeSeq w t
    .ok (h ++ r)

/-- Model of writer.py `writeValue` at a given recursion fuel (the Python
recursion terminates on every finite value; any fuel at least the nesting
depth of the value gives the faithful result, and `wfValueF fuel v`
certifies such a fuel): the emitted whole lines, one list entry per write
call (each call appends one LF, see `render`).  The else branch of the
source raises for a value of unknown type, which is where the bare Clear
class object and WaifReference land. -/
def writeValueF : Nat → PyValue → Except PyErr (List String)
  | 0, _ => .error .fuel
  | fuel + 1, v =>
    match v with
    | .int i => .ok [intToStr 0, intToStr i]
    | .str s => .ok [intToStr 2, s]
    | .obj i => .ok [intToStr 1, intToStr i]
    | .float .nan => .ok [intToStr 9, "nan"]
    | .float (.finite s) => .ok [intToStr 9, s]
    | .bool b => .ok [intToStr 14, if b then intToStr 1 else intToStr 0]
    | .list xs => do
      let body ← writeSeq (writeValueF fuel) xs
      .ok ([intToStr 4, intToStr xs.length] ++ body)
    | .map xs => do
      let body ← writeSeq (fun p => do
        let a ← writeValueF fuel p.1
        let b ← writeValueF fuel p.2
        .ok (a ++ b)) xs
      .ok ([intToStr 10, intToStr xs.length] ++ body)
    | .none => .ok [intToStr 6]
    | .Catch i => .ok [intToStr 7, intToStr i]
    | .clear => .ok [intToStr 5]
    | .err i => .ok [intToStr 3, intToStr i]
    | .anon i => .ok [intToStr 12, intToStr i]
    | .clearClass => .error (.exception "Unknown type <class Clear>")
    | .waifref _ => .error (.exception "Unknown type <class WaifReference>")

/-- Pairwise distinctness of map keys under Python equality. -/
def keysOkay : List (PyValue × PyValue) → Bool
  | [] => true
  | (k, _) :: t => t.all (fun p => !pyEqB k p.1) && keysOkay t

/-- Membership of the claimed decode-encode value universe at a given
nesting-depth fuel, together with what constructibility in Python gives for
free: strings contain no LF and no CR, a finite float literal is a nonempty
canonical text other than nan, map keys are hashable scalars that are
pairwise unequal under Python equality.  The constructors outside the
claimed universe (Anon, _Catch, WaifReference, the bare Clear class) are
excluded. -/
def wfValueF : Nat → PyValue → Bool
  | 0, _ => false
  | fuel + 1, v =>
    match v with
    | .int _ => true
    | .str s => cleanLine s
    | .obj _ => true
    | .err _ => true
    | .float .nan => true
    | .float (.finite s) => cleanLine s && !(s == "nan") && !(s == "")
    | .list xs => xs.all (wfValueF fuel)
    | .map xs =>
      xs.all (fun p => pyHashable p.1 && wfValueF fuel p.1 && wfValueF fuel p.2)
        && keysOkay xs
    | .bool _ => true
    | .none => true
    | .clear => true
    | _ => false



/-! ## Inversion lemmas for the value codec -/

theorem RM_run_bind {α β : Type} (m : RM α) (f : α → RM β) (st : RdSt) :
    (m >>= f) st =
      match m st with
      | .ok (a, st2) => f a st2
      | .error e => .error e := rfl

theorem RM_run_pure {α : Type} (a : α) (st : RdSt) : (pure a : RM α) st = .ok (a, st) := rfl

theorem readString_cons (l : String) (t : List String) (n : Nat) :
    readString ⟨l :: t, n⟩ = .ok (l, ⟨t, n + 1⟩) := rfl

theorem readInt_cons (i : Int) (t : List String) (n : Nat) :
    readInt ⟨intToStr i :: t, n⟩ = .ok (i, ⟨t, n + 1⟩) := by
  show (readString >>= fun s => _) _ = _
  simp only [RM_run_bind, readString_cons, pyIntOf?_intToStr]
  rfl

theorem readObjnum_cons (i : Int) (t : List String) (n : Nat) :
    readObjnum ⟨intToStr i :: t, n⟩ = .ok (i, ⟨t, n + 1⟩) := by
  show (readString >>= fun s => _) _ = _
  simp only [RM_run_bind, readString_cons, pyIntOf?_intToStr]
  rfl

theorem cleanLine_natToStr (n : Nat) : cleanLine (natToStr n) = true := by
  rcases Nat.eq_zero_or_pos n with h0 | hp
  · subst h0; decide
  · rw [natToStr, if_neg (by omega)]
    show ((natDigitsRev n).reverse).all _ = true
    simp only [List.all_eq_true]
    intro c hc
    obtain ⟨d, hd, rfl⟩ := natDigitsRev_mem (List.mem_reverse.mp hc)
    clear hc
    revert hd
    revert d
    decide

theorem cleanLine_intToStr (i : Int) : cleanLine (intToStr i) = true := by
  rw [intToStr]
  split
  · have h1 := cleanLine_natToStr i.natAbs
    rw [cleanLine] at h1 ⊢
    rw [show (("-" : String) ++ natToStr i.natAbs).toList
      = '-' :: (natToStr i.natAbs).toList from rfl]
    simpa using h1
  · exact cleanLine_natToStr i.natAbs

theorem except_run_bind {α β : Type} (m : Except PyErr α) (f : α → Except PyErr β) :
    (m >>= f) =
      match m with
      | .ok a => f a
      | .error e => .error e := by
  cases m <;> rfl

theorem writeSeq_cons_inv {a : Type} {w : a → Except PyErr (List String)} {x : a}
    {t : List a} {wl : List String} (h : writeSeq w (x :: t) = .ok wl) :
    ∃ h1 h2, w x = .ok h1 ∧ writeSeq w t = .ok h2 ∧ wl = h1 ++ h2 := by
  rw [writeSeq] at h
  cases hx : w x with
  | error e => rw [hx] at h; simp [except_run_bind] at h
  | ok h1 =>
    rw [hx] at h
    cases ht : writeSeq w t with
    | error e => rw [ht] at h; simp [except_run_bind] at h
    | ok h2 =>
      rw [ht] at h
      simp [except_run_bind] at h
      exact ⟨h1, h2, rfl, rfl, h.symm⟩

theorem writeValueF_pos {fuel : Nat} {v : PyValue} {wl : List String}
    (h : writeValueF fuel v = .ok wl) : 0 < wl.length := by
  match fuel with
  | 0 => rw [writeValueF] at h; cases h
  | wf + 1 =>
    cases v with
    | float f => cases f <;> (rw [writeValueF] at h; cases h; simp)
    | list xs =>
      rw [writeValueF] at h
      cases hb : writeSeq (writeValueF wf) xs with
      | error e => rw [hb] at h; simp [except_run_bind] at h
      | ok body => rw [hb] at h; simp [except_run_bind] at h; simp [← h]
    | map xs =>
      rw [writeValueF] at h
      cases hb : writeSeq (fun p => do
          let a ← writeValueF wf p.1
          let b ← writeValueF wf p.2
          (.ok (a ++ b) : Except PyErr (List String))) xs with
      | error e => rw [hb] at h; simp [except_run_bind] at h
      | ok body => rw [hb] at h; simp [except_run_bind] at h; simp [← h]
    | clearClass => rw [writeValueF] at h; cases h
    | waifref i => rw [writeValueF] at h; cases h
    | _ => rw [writeValueF] at h; cases h; simp

theorem dictInsert_append {acc : List (PyValue × PyValue)} {k : PyValue}
    (v : PyValue) (h : ∀ p ∈ acc, pyEqB p.1 k = false) :
    dictInsert acc k v = acc ++ [(k, v)] := by
  induction acc with
  | nil => rfl
  | cons p t ih =>
    obtain ⟨k0, v0⟩ := p
    rw [dictInsert, if_neg (by simp [h (k0, v0) (by simp)]), ih]
    · simp
    · exact fun q hq => h q (by simp [hq])

/-- Shape of the hypotheses threaded through the container loops: the
element reader at the loop fuel inverts the element writer. -/
def ReadsBack (fn : String) (wf rf : Nat) : Prop :=
  ∀ v wl, wfValueF wf v = true → writeValueF wf v = .ok wl →
    wl.length ≤ rf → ∀ rest n,
      readValue fn rf Option.none ⟨wl ++ rest, n⟩ = .ok (v, ⟨rest, n + wl.length⟩)

theorem readSeq_inv {fn : String} {wf rf : Nat} (ih : ReadsBack fn wf rf) :
    ∀ xs body acc, xs.all (wfValueF wf) = true →
    writeSeq (writeValueF wf) xs = .ok body → body.length ≤ rf →
    ∀ rest n, readSeq (readValue fn rf Option.none) xs.length acc ⟨body ++ rest, n⟩
      = .ok (acc.reverse ++ xs, ⟨rest, n + body.length⟩) := by
  intro xs
  induction xs with
  | nil =>
    intro body acc _ hw _ rest n
    rw [writeSeq] at hw
    cases hw
    simp [readSeq, RM_run_pure]
  | cons x t iht =>
    intro body acc hwf hw hlen rest n
    obtain ⟨h1, h2, hx, ht, rfl⟩ := writeSeq_cons_inv hw
    simp only [List.all_cons, Bool.and_eq_true] at hwf
    rw [List.length_cons, readSeq, RM_run_bind]
    rw [List.append_assoc]
    simp only [ih x h1 hwf.1 hx (by simp at hlen ⊢; omega) (h2 ++ rest) n]
    rw [iht h2 (x :: acc) hwf.2 ht (by simp at hlen ⊢; omega) rest (n + h1.length)]
    simp [List.append_assoc]
    omega

theorem readMapSeq_inv {fn : String} {wf rf : Nat} (ih : ReadsBack fn wf rf) :
    ∀ xs body acc,
    xs.all (fun p => pyHashable p.1 && wfValueF wf p.1 && wfValueF wf p.2) = true →
    keysOkay xs = true →
    writeSeq (fun p => do
      let a ← writeValueF wf p.1
      let b ← writeValueF wf p.2
      (.ok (a ++ b) : Except PyErr (List String))) xs = .ok body →
    body.length ≤ rf →
    (∀ p ∈ acc, ∀ q ∈ xs, pyEqB p.1 q.1 = false) →
    ∀ rest n, readMapSeq (readValue fn rf Option.none) xs.length acc ⟨body ++ rest, n⟩
      = .ok (acc ++ xs, ⟨rest, n + body.length⟩) := by
  intro xs
  induction xs with
  | nil =>
    intro body acc _ _ hw _ _ rest n
    rw [writeSeq] at hw
    cases hw
    simp [readMapSeq, RM_run_pure]
  | cons p t iht =>
    intro body acc hwf hkeys hw hlen hacc rest n
    obtain ⟨k, v⟩ := p
    obtain ⟨h1, h2, hkv, ht, rfl⟩ := writeSeq_cons_inv hw
    cases ha : writeValueF wf k with
    | error e => rw [ha] at hkv; simp [except_run_bind] at hkv
    | ok a =>
    cases hb : writeValueF wf v with
    | error e => rw [ha, hb] at hkv; simp [except_run_bind] at hkv
    | ok b =>
    rw [ha, hb] at hkv
    simp only [except_run_bind] at hkv
    cases hkv
    simp only [List.all_cons, Bool.and_eq_true] at hwf
    rw [keysOkay, Bool.and_eq_true] at hkeys
    rw [List.length_cons, readMapSeq, RM_run_bind]
    rw [show (a ++ b) ++ h2 ++ rest = a ++ (b ++ (h2 ++ rest)) by simp [List.append_assoc]]
    simp only [ih k a hwf.1.1.2 ha (by simp at hlen ⊢; omega) (b ++ (h2 ++ rest)) n]
    rw [RM_run_bind]
    simp only [ih v b hwf.1.2 hb (by simp at hlen ⊢; omega) (h2 ++ rest) (n + a.length)]
    rw [if_pos (by simp [hwf.1.1.1])]
    rw [dictInsert_append v (fun q hq => hacc q hq (k, v) (by simp))]
    have hacc2 : ∀ q ∈ acc ++ [(k, v)], ∀ r ∈ t, pyEqB q.1 r.1 = false := by
      intro q hq r hr
      rcases List.mem_append.mp hq with hq2 | hq2
      · exact hacc q hq2 r (by simp [hr])
      · have hk := hkeys.1
        simp only [List.all_eq_true] at hk
        have := hk r hr
        simp only [List.mem_singleton.mp hq2]
        simpa using this
    rw [iht h2 (acc ++ [(k, v)]) hwf.2 hkeys.2 ht (by simp at hlen ⊢; omega) hacc2 rest
      (n + a.length + b.length)]
    simp [List.append_assoc]
    omega

theorem readValue_inv (fn : String) : ∀ wfuel rfuel, ReadsBack fn wfuel rfuel := by
  intro wfuel
  induction wfuel with
  | zero =>
    intro rfuel v wl hwf
    rw [wfValueF] at hwf
    cases hwf
  | succ wf ih =>
    intro rfuel v wl hwf hw hlen rest n
    obtain ⟨rf, rfl⟩ : ∃ rf, rfuel = rf + 1 :=
      ⟨rfuel - 1, by have := writeValueF_pos hw; omega⟩
    cases v with
    | int i =>
      rw [writeValueF] at hw
      cases hw
      simp [readValue, RM_run_bind, readInt_cons, RM_run_pure]
    | str s =>
      rw [writeValueF] at hw
      cases hw
      simp [readValue, RM_run_bind, readInt_cons, readString_cons, RM_run_pure]
    | obj i =>
      rw [writeValueF] at hw
      cases hw
      simp [readValue, RM_run_bind, readInt_cons, readObjnum_cons, RM_run_pure]
    | err i =>
      rw [writeValueF] at hw
      cases hw
      simp [readValue, RM_run_bind, readInt_cons, RM_run_pure]
    | Catch i =>
      rw [show wfValueF (wf + 1) (PyValue.Catch i) = false from rfl] at hwf
      cases hwf
    | anon i =>
      rw [show wfValueF (wf + 1) (PyValue.anon i) = false from rfl] at hwf
      cases hwf
    | waifref i =>
      rw [show wfValueF (wf + 1) (PyValue.waifref i) = false from rfl] at hwf
      cases hwf
    | clearClass =>
      rw [show wfValueF (wf + 1) (PyValue.clearClass) = false from rfl] at hwf
      cases hwf
    | none =>
      rw [writeValueF] at hw
      cases hw
      simp [readValue, RM_run_bind, readInt_cons, RM_run_pure]
    | clear =>
      rw [writeValueF] at hw
      cases hw
      simp [readValue, RM_run_bind, readInt_cons, RM_run_pure]
    | bool b =>
      rw [writeValueF] at hw
      cases hw
      cases b <;>
        simp [readValue, readBool, RM_run_bind, readInt_cons, RM_run_pure]
    | float f =>
      cases f with
      | nan =>
        rw [writeValueF] at hw
        cases hw
        simp [readValue, readFloat, pyFloatOf?, RM_run_bind, readInt_cons, readString_cons,
          RM_run_pure]
      | finite s =>
        rw [writeValueF] at hw
        cases hw
        rw [wfValueF] at hwf
        simp only [Bool.and_eq_true, Bool.not_eq_eq_eq_not, Bool.not_true, beq_eq_false_iff_ne,
          ne_eq] at hwf
        simp [readValue, readFloat, pyFloatOf?, RM_run_bind, readInt_cons, readString_cons,
          RM_run_pure, hwf.1.2, hwf.2]
    | list xs =>
      rw [writeValueF] at hw
      cases hbody : writeSeq (writeValueF wf) xs with
      | error e => rw [hbody] at hw; simp [except_run_bind] at hw
      | ok body =>
        rw [hbody] at hw
        simp only [except_run_bind] at hw
        cases hw
        rw [wfValueF] at hwf
        have hbl : body.length ≤ rf := by simp at hlen; omega
        simp only [readValue, List.cons_append, List.nil_append, List.append_assoc, RM_run_bind, readInt_cons]
        simp only [show ((4 : Int) = 2) = False by simp, show ((4 : Int) = 1) = False by simp,
          show ((4 : Int) = 12) = False by simp, show ((4 : Int) = 0) = False by simp,
          show ((4 : Int) = 9) = False by simp, show ((4 : Int) = 3) = False by simp,
          if_false, if_true, eq_self_iff_true]
        simp only [RM_run_bind, readInt_cons, Int.toNat_natCast]
        simp only [readSeq_inv (ih rf) xs body [] hwf hbody hbl rest (n + 1 + 1)]
        simp [RM_run_pure]
        omega
    | map xs =>
      rw [writeValueF] at hw
      cases hbody : writeSeq (fun p => do
          let a ← writeValueF wf p.1
          let b ← writeValueF wf p.2
          (.ok (a ++ b) : Except PyErr (List String))) xs with
      | error e => rw [hbody] at hw; simp [except_run_bind] at hw
      | ok body =>
        rw [hbody] at hw
        simp only [except_run_bind] at hw
        cases hw
        rw [wfValueF] at hwf
        simp only [Bool.and_eq_true] at hwf
        have hbl : body.length ≤ rf := by simp at hlen; omega
        simp only [readValue, List.cons_append, List.nil_append, List.append_assoc, RM_run_bind, readInt_cons]
        simp only [show ((10 : Int) = 2) = False by simp, show ((10 : Int) = 1) = False by simp,
          show ((10 : Int) = 12) = False by simp, show ((10 : Int) = 0) = False by simp,
          show ((10 : Int) = 9) = False by simp, show ((10 : Int) = 3) = False by simp,
          show ((10 : Int) = 4) = False by simp, show ((10 : Int) = 5) = False by simp,
          show ((10 : Int) = 6) = False by simp, if_false, if_true, eq_self_iff_true]
        simp only [RM_run_bind, readInt_cons, Int.toNat_natCast]
        simp only [readMapSeq_inv (ih rf) xs body [] hwf.1 hwf.2 hbody hbl
          (by intro p hp; cases hp) rest (n + 1 + 1)]
        simp [RM_run_pure]
        omega

theorem writeSeq_clean {a : Type} {w : a → Except PyErr (List String)} :
    ∀ {xs : List a} {body : List String}, writeSeq w xs = .ok body →
    (∀ x ∈ xs, ∀ wl, w x = .ok wl → ∀ s ∈ wl, cleanLine s = true) →
    ∀ s ∈ body, cleanLine s = true := by
  intro xs
  induction xs with
  | nil =>
    intro body h _
    rw [writeSeq] at h
    cases h
    simp
  | cons x t ih =>
    intro body h helem s hs
    obtain ⟨h1, h2, hx, ht, rfl⟩ := writeSeq_cons_inv h
    rcases List.mem_append.mp hs with hm | hm
    · exact helem x (by simp) h1 hx s hm
    · exact ih ht (fun y hy => helem y (by simp [hy])) s hm

theorem writeValueF_clean : ∀ {fuel : Nat} {v : PyValue} {wl : List String},
    wfValueF fuel v = true → writeValueF fuel v = .ok wl →
    ∀ s ∈ wl, cleanLine s = true := by
  intro fuel
  induction fuel with
  | zero =>
    intro v wl hwf
    rw [wfValueF] at hwf
    cases hwf
  | succ wf ih =>
    intro v wl hwf hw s hs
    cases v with
    | int i =>
      rw [writeValueF] at hw; cases hw
      simp only [List.mem_cons, List.not_mem_nil, or_false] at hs
      rcases hs with rfl | rfl <;> exact cleanLine_intToStr _
    | obj i =>
      rw [writeValueF] at hw; cases hw
      simp only [List.mem_cons, List.not_mem_nil, or_false] at hs
      rcases hs with rfl | rfl <;> exact cleanLine_intToStr _
    | err i =>
      rw [writeValueF] at hw; cases hw
      simp only [List.mem_cons, List.not_mem_nil, or_false] at hs
      rcases hs with rfl | rfl <;> exact cleanLine_intToStr _
    | Catch i =>
      rw [show wfValueF (wf + 1) (PyValue.Catch i) = false from rfl] at hwf; cases hwf
    | anon i =>
      rw [show wfValueF (wf + 1) (PyValue.anon i) = false from rfl] at hwf; cases hwf
    | waifref i =>
      rw [show wfValueF (wf + 1) (PyValue.waifref i) = false from rfl] at hwf; cases hwf
    | clearClass =>
      rw [show wfValueF (wf + 1) PyValue.clearClass = false from rfl] at hwf; cases hwf
    | str t =>
      rw [writeValueF] at hw; cases hw
      rw [show wfValueF (wf + 1) (PyValue.str t) = cleanLine t from rfl] at hwf
      simp only [List.mem_cons, List.not_mem_nil, or_false] at hs
      rcases hs with rfl | rfl
      · exact cleanLine_intToStr _
      · exact hwf
    | none =>
      rw [writeValueF] at hw; cases hw
      simp only [List.mem_cons, List.not_mem_nil, or_false] at hs
      subst hs
      exact cleanLine_intToStr _
    | clear =>
      rw [writeValueF] at hw; cases hw
      simp only [List.mem_cons, List.not_mem_nil, or_false] at hs
      subst hs
      exact cleanLine_intToStr _
    | bool b =>
      rw [writeValueF] at hw; cases hw
      simp only [List.mem_cons, List.not_mem_nil, or_false] at hs
      cases b <;> rcases hs with rfl | rfl <;> simp [cleanLine_intToStr]
    | float f =>
      cases f with
      | nan =>
        rw [writeValueF] at hw; cases hw
        simp only [List.mem_cons, List.not_mem_nil, or_false] at hs
        rcases hs with rfl | rfl
        · exact cleanLine_intToStr _
        · decide
      | finite t =>
        rw [writeValueF] at hw; cases hw
        rw [show wfValueF (wf + 1) (PyValue.float (PyFloat.finite t))
          = (cleanLine t && !(t == "nan") && !(t == "")) from rfl] at hwf
        simp only [Bool.and_eq_true] at hwf
        simp only [List.mem_cons, List.not_mem_nil, or_false] at hs
        rcases hs with rfl | rfl
        · exact cleanLine_intToStr _
        · exact hwf.1.1
    | list xs =>
      rw [writeValueF] at hw
      cases hbody : writeSeq (writeValueF wf) xs with
      | error e => rw [hbody] at hw; simp [except_run_bind] at hw
      | ok body =>
        rw [hbody] at hw
        simp only [except_run_bind] at hw
        cases hw
        rw [show wfValueF (wf + 1) (PyValue.list xs) = xs.all (wfValueF wf) from rfl] at hwf
        simp only [List.all_eq_true] at hwf
        simp only [List.cons_append, List.nil_append, List.mem_cons, List.mem_append] at hs
        rcases hs with rfl | rfl | hm
        · exact cleanLine_intToStr _
        · exact cleanLine_intToStr _
        · exact writeSeq_clean hbody (fun x hx wl2 hwl2 => ih (hwf x hx) hwl2) s hm
    | map xs =>
      rw [writeValueF] at hw
      cases hbody : writeSeq (fun p => do
          let a ← writeValueF wf p.1
          let b ← writeValueF wf p.2
          (.ok (a ++ b) : Except PyErr (List String))) xs with
      | error e => rw [hbody] at hw; simp [except_run_bind] at hw
      | ok body =>
        rw [hbody] at hw
        simp only [except_run_bind] at hw
        cases hw
        rw [show wfValueF (wf + 1) (PyValue.map xs)
          = (xs.all (fun p => pyHashable p.1 && wfValueF wf p.1 && wfValueF wf p.2)
            && keysOkay xs) from rfl] at hwf
        simp only [Bool.and_eq_true, List.all_eq_true] at hwf
        simp only [List.cons_append, List.nil_append, List.mem_cons, List.mem_append] at hs
        rcases hs with rfl | rfl | hm
        · exact cleanLine_intToStr _
        · exact cleanLine_intToStr _
        · refine writeSeq_clean hbody (fun p hp wl2 hwl2 s2 hs2 => ?_) s hm
          have hp2 := hwf.1 p hp
          simp only [Bool.and_eq_true] at hp2
          cases ha : writeValueF wf p.1 with
          | error e => rw [ha] at hwl2; simp [except_run_bind] at hwl2
          | ok a =>
            cases hb : writeValueF wf p.2 with
            | error e => rw [ha, hb] at hwl2; simp [except_run_bind] at hwl2
            | ok b =>
              rw [ha, hb] at hwl2
              simp only [except_run_bind] at hwl2
              cases hwl2
              rcases List.mem_append.mp hs2 with hm2 | hm2
              · exact ih hp2.1.2 ha s2 hm2
              · exact ih hp2.2 hb s2 hm2

theorem writeSeq_ok {a : Type} {w : a → Except PyErr (List String)} :
    ∀ {xs : List a}, (∀ x ∈ xs, ∃ h, w x = .ok h) →
    ∃ body, writeSeq w xs = .ok body := by
  intro xs
  induction xs with
  | nil => exact fun _ => ⟨[], rfl⟩
  | cons x t ih =>
    intro h
    obtain ⟨hx, hhx⟩ := h x (by simp)
    obtain ⟨ht, hht⟩ := ih (fun y hy => h y (by simp [hy]))
    exact ⟨hx ++ ht, by rw [writeSeq, hhx, hht]; rfl⟩

theorem writeValueF_ok : ∀ {fuel : Nat} {v : PyValue}, wfValueF fuel v = true →
    ∃ wl, writeValueF fuel v = .ok wl := by
  intro fuel
  induction fuel with
  | zero =>
    intro v hwf
    rw [wfValueF] at hwf
    cases hwf
  | succ wf ih =>
    intro v hwf
    cases v with
    | Catch i =>
      rw [show wfValueF (wf + 1) (PyValue.Catch i) = false from rfl] at hwf; cases hwf
    | anon i =>
      rw [show wfValueF (wf + 1) (PyValue.anon i) = false from rfl] at hwf; cases hwf
    | waifref i =>
      rw [show wfValueF (wf + 1) (PyValue.waifref i) = false from rfl] at hwf; cases hwf
    | clearClass =>
      rw [show wfValueF (wf + 1) PyValue.clearClass = false from rfl] at hwf; cases hwf
    | float f => cases f <;> exact ⟨_, rfl⟩
    | list xs =>
      rw [show wfValueF (wf + 1) (PyValue.list xs) = xs.all (wfValueF wf) from rfl] at hwf
      simp only [List.all_eq_true] at hwf
      obtain ⟨body, hbody⟩ := writeSeq_ok (fun x hx => ih (hwf x hx))
      exact ⟨_, by rw [writeValueF, hbody]; rfl⟩
    | map xs =>
      rw [show wfValueF (wf + 1) (PyValue.map xs)
        = (xs.all (fun p => pyHashable p.1 && wfValueF wf p.1 && wfValueF wf p.2)
          && keysOkay xs) from rfl] at hwf
      simp only [Bool.and_eq_true, List.all_eq_true] at hwf
      have helem : ∀ p ∈ xs, ∃ h, (fun p => do
          let a ← writeValueF wf p.1
          let b ← writeValueF wf p.2
          (.ok (a ++ b) : Except PyErr (List String))) p = .ok h := by
        intro p hp
        have hp2 := hwf.1 p hp
        simp only [Bool.and_eq_true] at hp2
        obtain ⟨a, ha⟩ := ih hp2.1.2
        obtain ⟨b, hb⟩ := ih hp2.2
        exact ⟨a ++ b, by simp only [ha, hb, except_run_bind]⟩
      obtain ⟨body, hbody⟩ := writeSeq_ok helem
      exact ⟨_, by rw [writeValueF, hbody]; rfl⟩
    | _ => exact ⟨_, rfl⟩

/-! ## Claim C2: the value codec round trip -/

/-- Byte stream produced by `Writer.writeValue` for one value (the caller
in rw.py opens the dump file with newline set to LF, so the written
characters are the file content verbatim). -/
def encodeValue (fuel : Nat) (v : PyValue) : Except PyErr String :=
  match writeValueF fuel v with
  | .ok wl => .ok (render wl)
  | .error e => .error e

/-- Result of `Reader.readValue` on a byte stream: the file is opened in
text mode (universal newlines), and the fuel is one more than the number of
lines, which bounds the possible nesting. -/
def decodeValue (fn : String) (stream : String) : Except PyErr PyValue :=
  match readValue fn ((uLines stream).length + 1) Option.none ⟨uLines stream, 0⟩ with
  | .ok (v, _) => .ok v
  | .error e => .error e

/-- C2, counterexample: the string abc followed by a carriage return has no
embedded LF, so it lies in the claimed value universe, but writeValue emits
it on one physical line whose trailing CR-LF is one line break under the
universal-newline read (and would be removed by the rstrip of readString
even without that translation), so readValue returns the string abc
instead: the claimed equality decode(encode v) = v fails at this input. -/
theorem C2_counterexample :
    (("abc\x0d" : String).toList.all fun c => !(c = '\n')) = true
    ∧ encodeValue 1 (.str "abc\x0d") = .ok "2\nabc\x0d\n"
    ∧ decodeValue "file.db" "2\nabc\x0d\n" = .ok (.str "abc")
    ∧ PyValue.str "abc" ≠ PyValue.str "abc\x0d" := by
  exact ⟨by decide, rfl, rfl, by simp⟩

/-- C2 (amended): for every value in the claimed universe whose strings
contain no LF and no CR (the well-formedness predicate `wfValueF`, which
also records what Python constructibility guarantees: canonical float
literals and hashable, pairwise-unequal dict keys), decoding the encoding
yields the value back.  The fuel quantifies over all sufficient recursion
bounds: every universe value satisfies wfValueF at any fuel at least its
nesting depth. -/
theorem C2_roundtrip (fn : String) : ∀ fuel v, wfValueF fuel v = true →
    ∃ stream, encodeValue fuel v = .ok stream ∧ decodeValue fn stream = .ok v := by
  intro fuel v hwf
  obtain ⟨wl, hwl⟩ := writeValueF_ok hwf
  refine ⟨render wl, by rw [encodeValue, hwl], ?_⟩
  have hclean : ∀ s ∈ wl, cleanLine s = true := writeValueF_clean hwf hwl
  have hlines : uLines (render wl) = wl := uLines_render hclean
  rw [decodeValue, hlines]
  have hread := readValue_inv fn fuel (wl.length + 1) v wl hwf hwl (by omega) [] 0
  rw [List.append_nil] at hread
  rw [hread]

/-- C2, witness: the amended round trip at the value of spec scenario 4,
List(Int 1, Str hello, Map(Str k to Bool true), Clear, None). -/
theorem C2_witness :
    wfValueF 3 (.list [.int 1, .str "hello", .map [(.str "k", .bool true)], .clear, .none]) = true
    ∧ ∃ stream, encodeValue 3
        (.list [.int 1, .str "hello", .map [(.str "k", .bool true)], .clear, .none])
        = .ok stream
      ∧ decodeValue "toast.db" stream
        = .ok (.list [.int 1, .str "hello", .map [(.str "k", .bool true)], .clear, .none]) :=
  ⟨by decide, C2_roundtrip "toast.db" 3 _ (by decide)⟩

/-! ## Header templates (templates.py) and regex models -/

/-- Remove a literal leading piece, if present. -/
def chopPre : List Char → List Char → Option (List Char)
  | [], s => some s
  | c :: pt, d :: st => if c = d then chopPre pt st else Option.none
  | _ :: _, [] => Option.none

/-- Remove a literal trailing piece, if present. -/
def chopSuf (q s : List Char) : Option (List Char) :=
  (chopPre q.reverse s.reverse).map List.reverse

/-- Match a parse template of the shape literal-text, one d field,
literal-text, anchored at both ends as the compiled parse regexes are. -/
def matchOneInt (pre suf s : String) : Option Int :=
  match chopPre pre.toList s.toList with
  | some rest =>
    match chopSuf suf.toList rest with
    | some mid => pyIntOf? (String.mk mid)
    | Option.none => Option.none
  | Option.none => Option.none

/-- Model of the version template: LambdaMOO Database, Format Version d. -/
def matchVersion (s : String) : Option Int :=
  matchOneInt "** LambdaMOO Database, Format Version " " **" s

/-- Python str.split on a single space: empty fields are kept. -/
def splitSpAux : List Char → List Char → List String
  | [], acc => [String.mk acc.reverse]
  | ' ' :: t, acc => String.mk acc.reverse :: splitSpAux t []
  | c :: t, acc => splitSpAux t (c :: acc)

def splitSp (s : String) : List String := splitSpAux s.toList []

/-- Match a template of consecutive d fields separated by single spaces. -/
def matchInts (s : String) : Option (List Int) :=
  let go : List String → Option (List Int) := fun parts =>
    parts.foldr (fun p acc =>
      match pyIntOf? p, acc with
      | some i, some t => some (i :: t)
      | _, _ => Option.none) (some [])
  go (splitSp s)

/-- Model of the suspended_task_header template, d space d space one
untyped field: the value field is the rest of the line and the compiled
regex requires it to be nonempty, so a two-field line does not match. -/
def matchSuspHeader (s : String) : Option (Int × Int × String) :=
  match splitSp s with
  | st :: id :: rest =>
    match pyIntOf? st, pyIntOf? id with
    | some a, some b =>
      let value := String.intercalate " " rest
      if rest.isEmpty ∨ value = "" then Option.none else some (a, b, value)
    | _, _ => Option.none
  | _ => Option.none

/-- Model of the raw interrupted-task header regex: digits, one space, any
nonempty remainder (the pattern is only anchored at the start, and the
status group consumes the rest of the line). -/
def matchInterruptedHeader (s : String) : Option (Nat × String) :=
  match splitSp s with
  | id :: rest =>
    match pyNatOf? id with
    | some a =>
      let status := String.intercalate " " rest
      if rest.isEmpty ∨ status = "" then Option.none else some (a, status)
    | Option.none => Option.none
  | _ => Option.none

/-- Model of the raw connection-count regex: digits, the literal text
active connections, and an optional with-listeners tag; the pattern is only
anchored at the start, so trailing text is ignored. -/
def matchConnCount (s : String) : Option (Nat × Bool) :=
  let cs := s.toList
  let ds := cs.takeWhile (fun c => c.isDigit)
  match pyNatOf? (String.mk ds) with
  | some n =>
    match chopPre " active connections".toList (cs.drop ds.length) with
    | some rest =>
      some (n, " with listeners".toList.isPrefixOf rest)
    | Option.none => Option.none
  | Option.none => Option.none

/-- Whether the first list occurs contiguously inside the second. -/
def listHasInfix (needle : List Char) : List Char → Bool
  | [] => needle.isEmpty
  | c :: t => needle.isPrefixOf (c :: t) || listHasInfix needle t

/-- Python substring membership test (the in operator on str). -/
def strHas (hay needle : String) : Bool :=
  listHasInfix needle.toList hay.toList

/-- Python list indexing: negative indices count from the end; out of range
raises IndexError. -/
def pyListGet {a : Type} (l : List a) (i : Int) : Option a :=
  if 0 ≤ i then l.get? i.toNat
  else if i.natAbs ≤ l.length then l.get? (l.length - i.natAbs)
  else Option.none

/-- Python list item assignment, same index rule. -/
def pyListSet {a : Type} (l : List a) (i : Int) (x : a) : Option (List a) :=
  if 0 ≤ i then if i.toNat < l.length then some (l.set i.toNat x) else Option.none
  else if i.natAbs ≤ l.length then some (l.set (l.length - i.natAbs) x) else Option.none

/-! ## Data model (database.py) -/

/-- Verb (database.py): metadata plus optional source code. -/
structure Verb where
  name : String
  owner : Int
  perms : Int
  preps : Int
  object : Int
  code : Option (List String)
  deriving Repr, DecidableEq

/-- Propdef (database.py): the stored value, owner and permission bits of
one property slot.  PropertyFlags is imported by database.py but missing
from the sources; modelled from the spec: perms is a plain bitfield
integer, and the IntFlag conversions applied by reader.py and the attrs
converter accept any integer unchanged. -/
structure Propdef where
  value : PyValue
  owner : Int
  perms : Int

/-- MooObject (database.py) as the data model presents it.  The location,
last_move, contents, parents and children slots hold whatever Value the
reader or a caller put there, so they are PyValue here; ObjectFlags is
imported by database.py but missing from the sources and is modelled from
the spec as a plain bitfield integer.  The db back-reference field that
database.py declares first is not carried: no code under src/ ever passes
it (see the C1 notes on object construction). -/
structure Obj where
  id : Int
  name : String
  flags : Int
  owner : Int
  location : PyValue
  parents : List PyValue
  children : PyValue
  last_move : PyValue
  contents : PyValue
  verbs : List Verb
  propnames : List String
  propdefs : List Propdef
  anon : Bool
  recycled : Bool

/-- Waif (database.py): four required fields.  Never constructed by the
reader, whose three-argument call raises TypeError (see readWaif). -/
structure Waif where
  waif_class : Int
  owner : Int
  prop_indexes : List PyValue
  props : List PyValue

/-- Activation (database.py): one call frame.  Fields whose attrs defaults
exist are given those defaults by mkActivation below; this and vloc hold
Values on the v17 path and header integers before DBV_This and DBV_Anon. -/
structure Activation where
  this : PyValue
  threaded : Int
  player : Int
  programmer : Int
  vloc : PyValue
  debug : Bool
  verb : String
  verbname : String
  code : List String
  stack : List PyValue
  unused1 : Int
  unused2 : Int
  unused3 : Int
  unused4 : Int
  rtEnv : List (String × PyValue)
  temp : PyValue
  pc : Int
  bi_func : Int
  func_name : String
  error : Int

/-- VM (database.py). -/
structure VM where
  locals : PyValue
  stack : List Activation
  top : Int
  vector : Int
  funcId : Int
  maxStackframes : Int

/-- QueuedTask (database.py). -/
structure QueuedTask where
  firstLineno : Int
  id : Int
  st : Int
  unused : Int
  activation : Activation
  rtEnv : List (String × PyValue)
  code : List String

/-- SuspendedTask (database.py): the value attribute defaults to None and
is the Python None either way, so it is a PyValue here. -/
structure SuspendedTask where
  firstLineno : Int
  id : Int
  start_time : Int
  value : PyValue
  vm : VM

/-- InterruptedTask (database.py). -/
structure InterruptedTask where
  id : Int
  status : String
  vm : VM

/-- Connection (database.py). -/
structure Connection where
  who : Int
  listener : Int
  deriving Repr, DecidableEq

/-- MooDatabase (database.py).  The objects and waifs dicts are modelled as
insertion-ordered association lists, as Python dicts are. -/
structure Db where
  versionstring : String
  version : Int
  total_objects : Int
  total_verbs : Int
  total_players : Int
  finalizations : List PyValue
  clocks : List String
  objects : List (Int × Obj)
  queuedTasks : List QueuedTask
  suspendedTasks : List SuspendedTask
  interruptedTasks : List InterruptedTask
  connections : List Connection
  waifs : List (Int × Waif)
  players : List Int

/-- A fresh MooDatabase(): every collection empty.  The versionstring and
version attrs fields are declared without defaults and are unset until the
parser assigns them; the placeholder empty string and zero stand for that
unset state and are never compared by any theorem before assignment. -/
def Db.init : Db :=
  ⟨"", 0, 0, 0, 0, [], [], [], [], [], [], [], [], []⟩

/-- Dict lookup keyed by Python int (objects and waifs tables). -/
def alistGet {a : Type} (m : List (Int × a)) (k : Int) : Option a :=
  match m with
  | [] => Option.none
  | (k0, v) :: t => if k0 = k then some v else alistGet t k

/-- Dict insertion keyed by Python int: replacement keeps the position. -/
def alistPut {a : Type} (m : List (Int × a)) (k : Int) (v : a) : List (Int × a) :=
  match m with
  | [] => [(k, v)]
  | (k0, v0) :: t => if k0 = k then (k0, v) :: t else (k0, v0) :: alistPut t k v

/-! ## Section readers (reader.py) -/

/-- Run a reader step a fixed number of times, collecting results in order
(the for loop of `_read_and_process_items`). -/
def repeatRM {a : Type} (step : RM a) : Nat → List a → RM (List a)
  | 0, acc => pure acc.reverse
  | n + 1, acc => do
    let x ← step
    repeatRM step n (x :: acc)

/-- Model of reader.py `readCode`: lines until a lone dot; the fuel models
the unbounded Python loop (which, at end of file, would spin forever on the
empty string readline returns). -/
def readCode : Nat → List String → RM (List String)
  | 0, _ => rerr .fuel
  | fuel + 1, acc => do
    let l ← readString
    if l = "." then pure acc.reverse else readCode fuel (l :: acc)

/-- Python dict insertion with str keys (rt environments). -/
def rtInsert (m : List (String × PyValue)) (k : String) (v : PyValue) :
    List (String × PyValue) :=
  match m with
  | [] => [(k, v)]
  | (k0, v0) :: t => if k0 = k then (k0, v) :: t else (k0, v0) :: rtInsert t k v

/-- Loop of reader.py `readRTEnv`. -/
def readRTEnvLoop (fn : String) (vfuel : Nat) :
    Nat → List (String × PyValue) → RM (List (String × PyValue))
  | 0, env => pure env
  | n + 1, env => do
    let name ← readString
    let value ← readValue fn vfuel Option.none
    readRTEnvLoop fn vfuel n (rtInsert env name value)

/-- Model of reader.py `readRTEnv`. -/
def readRTEnv (fn : String) (vfuel : Nat) : RM (List (String × PyValue)) := do
  let header ← readString
  match matchOneInt "" " variables" header with
  | Option.none => parseError fn "Could not find variable count for RT Env"
  | some count => readRTEnvLoop fn vfuel count.toNat []

/-- Model of reader.py `read_activation_as_pi`.  Before DBV_This (11) the
this slot comes from the header, before DBV_Anon (13) so does vloc, and
before DBV_Threaded (16) threaded is zero.  The debug flag is
bool(headerMatch[9]) applied to the matched digit text, which is nonempty
whenever the regex matched, so it is always True. -/
def read_activation_as_pi (fn : String) (vfuel : Nat) (version : Int) : RM Activation := do
  let _ ← readValue fn vfuel Option.none
  let thisV ← if 11 ≤ version then readValue fn vfuel Option.none else pure PyValue.none
  let vlocV ← if 13 ≤ version then readValue fn vfuel Option.none else pure PyValue.none
  let threaded ← if 16 ≤ version then readInt else pure 0
  let headerLine ← readString
  match matchInts headerLine with
  | some [h1, h2, h3, h4, h5, h6, h7, h8, _h9] => do
    let _ ← readString
    let _ ← readString
    let _ ← readString
    let _ ← readString
    let verb ← readString
    let verbname ← readString
    pure
      { this := if 11 ≤ version then thisV else .int h1
        threaded := threaded
        player := h4
        programmer := h6
        vloc := if 13 ≤ version then vlocV else .int h7
        debug := true
        verb := verb
        verbname := verbname
        code := []
        stack := []
        unused1 := h2
        unused2 := h3
        unused3 := h5
        unused4 := h8
        rtEnv := []
        temp := .none
        pc := 0
        bi_func := 0
        func_name := ""
        error := 0 }
  | _ => parseError fn "Could not find activation header"

/-- Model of reader.py `read_activation` (the full frame form). -/
def read_activation (fn : String) (vfuel cfuel : Nat) (version : Int) : RM Activation := do
  let _ ← if version < 3 then pure () else do
    let langver ← readString
    match matchOneInt "language version " "" langver with
    | Option.none => parseError fn ("Bad language version header " ++ langver)
    | some _ => pure ()
  let code ← readCode cfuel []
  let rt ← readRTEnv fn vfuel
  let stackheader ← readString
  match matchOneInt "" " rt_stack slots in use" stackheader with
  | Option.none => parseError fn "READ_ACTIV: bad stack header"
  | some slots => do
    let stack ← repeatRM (readValue fn vfuel Option.none) slots.toNat []
    let act ← read_activation_as_pi fn vfuel version
    let temp ← readValue fn vfuel Option.none
    let pchead ← readString
    match matchInts pchead with
    | some [pc, biFunc, errCode] => do
      let funcName ← if biFunc ≠ 0 then readString else pure ""
      pure { act with
        stack := stack
        code := code
        rtEnv := rt
        temp := temp
        pc := pc
        bi_func := biFunc
        error := errCode
        func_name := funcName }
    | _ => parseError fn "READ_ACTIV: bad pc"

/-- Model of reader.py `readVM`. -/
def readVM (fn : String) (vfuel cfuel : Nat) (version : Int) : RM VM := do
  let locals ← if 6 ≤ version then readValue fn vfuel Option.none else pure (PyValue.map [])
  let header ← readString
  match matchInts header with
  | some [top, vector, funcId, maxSf] => do
    let stack ← repeatRM (read_activation fn vfuel cfuel version) (top + 1).toNat []
    pure ⟨locals, stack, top, vector, funcId, maxSf⟩
  | _ => parseError fn ("Bad VM Header " ++ header)

/-- Model of reader.py `readSuspendedTask`: the header line must match the
three-field suspended_task_header template; the walrus test on the value
group is then always taken, since the matched field is nonempty.  The tag
read from the header is forced into readValue, so no tag line is consumed
for the value.  A suspended task records firstLineno zero. -/
def readSuspendedTask (fn : String) (vfuel cfuel : Nat) (version : Int) :
    RM SuspendedTask := do
  let header ← readString
  match matchSuspHeader header with
  | Option.none => parseError fn "Bad suspended task header"
  | some (startTime, id, val) =>
    match pyIntOf? val with
    | Option.none => rerr (.valueError ("invalid literal for int() with base 10: " ++ val))
    | some tag => do
      let value ← readValue fn vfuel (some tag)
      let vm ← readVM fn vfuel cfuel version
      pure ⟨0, id, startTime, value, vm⟩

/-- Model of reader.py `readSuspendedTasks`. -/
def readSuspendedTasks (fn : String) (vfuel cfuel : Nat) (version : Int) :
    RM (List SuspendedTask) := do
  let header ← readString
  match matchOneInt "" " suspended tasks" header with
  | Option.none => parseError fn "Bad suspended tasks header"
  | some count => repeatRM (readSuspendedTask fn vfuel cfuel version) count.toNat []

/-- Model of reader.py `readInterruptedTask`. -/
def readInterruptedTask (fn : String) (vfuel cfuel : Nat) (version : Int) :
    RM InterruptedTask := do
  let header ← readString
  match matchInterruptedHeader header with
  | Option.none => parseError fn "Bad interrupted tasks header"
  | some (id, status) => do
    let vm ← readVM fn vfuel cfuel version
    pure ⟨id, status, vm⟩

/-- Model of reader.py `readInterruptedTasks`. -/
def readInterruptedTasks (fn : String) (vfuel cfuel : Nat) (version : Int) :
    RM (List InterruptedTask) := do
  let header ← readString
  match matchOneInt "" " interrupted tasks" header with
  | Option.none => parseError fn "Bad interrupted tasks header"
  | some count => repeatRM (readInterruptedTask fn vfuel cfuel version) count.toNat []

/-- Model of reader.py `readQueuedTask`: header fields are unused,
firstLineno, st, id in that order. -/
def readQueuedTask (fn : String) (vfuel cfuel : Nat) (version : Int) : RM QueuedTask := do
  let header ← readString
  match matchInts header with
  | some [unused, firstLineno, st, id] => do
    let act ← read_activation_as_pi fn vfuel version
    let rt ← readRTEnv fn vfuel
    let code ← readCode cfuel []
    pure ⟨firstLineno, id, st, unused, act, rt, code⟩
  | _ => parseError fn "Could not find task header"

/-- Model of reader.py `readTaskQueue` (the closing assert compares the
declared count with the number of appended tasks, which agree by
construction here since the queue starts empty). -/
def readTaskQueue (fn : String) (vfuel cfuel : Nat) (version : Int) :
    RM (List QueuedTask) := do
  let header ← readString
  match matchOneInt "" " queued tasks" header with
  | Option.none => parseError fn "Could not find task queue"
  | some count => repeatRM (readQueuedTask fn vfuel cfuel version) count.toNat []

/-- Model of reader.py `readClocks` and `readClock`: obsolete lines kept
verbatim. -/
def readClocks (fn : String) : RM (List String) := do
  let header ← readString
  match matchOneInt "" " clocks" header with
  | Option.none => parseError fn "Could not find clock definitions"
  | some count => repeatRM readString count.toNat []

/-- Model of reader.py `readPending`. -/
def readPending (fn : String) (vfuel : Nat) : RM (List PyValue) := do
  let header ← readString
  match matchOneInt "" " values pending finalization" header with
  | Option.none => parseError fn "Bad pending finalizations"
  | some count => repeatRM (readValue fn vfuel Option.none) count.toNat []

/-- Model of reader.py `readPlayers`, including the closing assert, which
fails exactly when the declared count is negative (the loop then appends
nothing). -/
def readPlayers : RM (Int × List Int) := do
  let total ← readInt
  let players ← repeatRM readObjnum total.toNat []
  if total = players.length then pure (total, players) else rerr .assertionError

/-- Model of reader.py `readConnection`. -/
def readConnection (listeners : Bool) : RM Connection := do
  let line ← readString
  if listeners then
    match splitSp line with
    | [a, b] =>
      match pyIntOf? a, pyIntOf? b with
      | some who, some listener => pure ⟨who, listener⟩
      | _, _ => rerr (.valueError ("invalid literal for int() with base 10: " ++ line))
    | _ => rerr (.valueError "not enough values to unpack")
  else
    match pyIntOf? line with
    | some who => pure ⟨who, 0⟩
    | Option.none => rerr (.valueError ("invalid literal for int() with base 10: " ++ line))

/-- Model of reader.py `readConnections`. -/
def readConnections (fn : String) : RM (List Connection) := do
  let header ← readString
  match matchConnCount header with
  | Option.none => parseError fn "Bad active connections header line"
  | some (count, listeners) => repeatRM (readConnection listeners) count []

/-- Whether a string starts with the given literal text. -/
def strStarts (s pre : String) : Bool := pre.toList.isPrefixOf s.toList

/-- Model of reader.py `readVerbMetadata`: one verb metadata record,
appended with the owning object id and no code yet. -/
def readVerbMetadata (objId : Int) : RM Verb := do
  let name ← readString
  let owner ← readObjnum
  let perms ← readInt
  let preps ← readInt
  pure ⟨name, owner, perms, preps, objId, Option.none⟩

/-- Model of reader.py `readProperties`: own property names, then all
propdefs (value, owner, perms); the PropertyFlags conversion is the
identity on the integer (see Propdef). -/
def readProperties (fn : String) (vfuel : Nat) : RM (List String × List Propdef) := do
  let numProperties ← readInt
  let names ← repeatRM readString numProperties.toNat []
  let numPropdefs ← readInt
  let defs ← repeatRM (do
    let value ← readValue fn vfuel Option.none
    let owner ← readObjnum
    let perms ← readInt
    pure (⟨value, owner, perms⟩ : Propdef)) numPropdefs.toNat []
  pure (names, defs)

/-- Model of reader.py `readObject_v4`.  A recycled marker line yields no
object.  Otherwise the source reads the object header fields and then
executes `MooObject(id=..., name=..., flags=..., owner=..., location=...,
parents=[parent])`: database.py declares a first required field db that
this call never passes, so Python raises TypeError here and the verb
metadata and properties that follow in the stream are dead code. -/
def readObject_v4 (fn : String) : RM (Option Obj) := do
  let objNumber ← readString
  if !(strStarts objNumber "#") then parseError fn "object number does not have #"
  else if strHas objNumber "recycled" then pure Option.none
  else
    match pyIntOf? (String.mk (objNumber.toList.drop 1)) with
    | Option.none => rerr (.valueError ("invalid literal for int() with base 10: "
        ++ String.mk (objNumber.toList.drop 1)))
    | some _oid => do
      let _name ← readString
      let _blank ← readString
      let _flags ← readInt
      let _owner ← readObjnum
      let _location ← readObjnum
      let _firstContent ← readInt
      let _neighbor ← readInt
      let _parent ← readObjnum
      let _firstChild ← readInt
      let _sibling ← readInt
      rerr (.typeError "MooObject.__init__() missing 1 required positional argument: db")

/-- Model of reader.py `readObject_ng`.  The header fields are read as in
the source; the positional call `MooObject(oid, name, flags, owner,
location, parents)` then binds db=oid, id=name, name=flags,
flags=ObjectFlags(owner), owner=location, location=parents and leaves the
parents list empty, producing an object whose id slot holds the name
string.  Such a mistyped object (and the objects dict keyed by it) is not
representable in this typed model, which stops here with a distinguished
error; no theorem below reaches this point, and every universally
quantified load theorem keeps the object loop empty. -/
def readObject_ng (fn : String) (vfuel : Nat) (version : Int) : RM (Option Obj) := do
  let objNumber ← readString
  if !(strStarts objNumber "#") then parseError fn "object number does not have #"
  else if strHas objNumber "recycled" then pure Option.none
  else
    match pyIntOf? (String.mk (objNumber.toList.drop 1)) with
    | Option.none => rerr (.valueError ("invalid literal for int() with base 10: "
        ++ String.mk (objNumber.toList.drop 1)))
    | some _oid => do
      let _name ← readString
      let _flags ← readInt
      let _owner ← readObjnum
      let _location ← readValue fn vfuel Option.none
      let _lastMove ← if 15 ≤ version then readValue fn vfuel Option.none
        else pure PyValue.none
      let _contents ← readValue fn vfuel Option.none
      let _parents ← readValue fn vfuel Option.none
      let _children ← readValue fn vfuel Option.none
      rerr (.exception "model cutoff: MooObject(oid, name, ...) misbinds its fields")

/-- Model of reader.py `readObjects`: the objects dict is reset and filled
with the non-recycled objects, keyed by id. -/
def readObjectsLoop (fn : String) (vfuel : Nat) (version : Int) :
    Nat → List (Int × Obj) → RM (List (Int × Obj))
  | 0, objects => pure objects
  | n + 1, objects => do
    let obj? ← if version = 4 then readObject_v4 fn else readObject_ng fn vfuel version
    match obj? with
    | Option.none => readObjectsLoop fn vfuel version n objects
    | some obj => readObjectsLoop fn vfuel version n (alistPut objects obj.id obj)

/-- Model of reader.py `readAnonObjects`: chunks of object blocks, each
introduced by a count, ended by a zero count; negative counts read no
objects and continue the loop.  A recycled anon would make the source set
the anon attribute on None, an AttributeError. -/
def readAnonObjects (fn : String) (vfuel : Nat) (version : Int) :
    Nat → List (Int × Obj) → RM (List (Int × Obj))
  | 0, _ => rerr .fuel
  | afuel + 1, objects => do
    let numAnon ← readInt
    if numAnon = 0 then pure objects
    else if 0 < numAnon then do
      let objects2 ← readAnonChunk fn vfuel version numAnon.toNat objects
      readAnonObjects fn vfuel version afuel objects2
    else readAnonObjects fn vfuel version afuel objects
where
  readAnonChunk (fn : String) (vfuel : Nat) (version : Int) :
      Nat → List (Int × Obj) → RM (List (Int × Obj))
    | 0, objects => pure objects
    | n + 1, objects => do
      let obj? ← readObject_ng fn vfuel version
      match obj? with
      | Option.none => rerr (.attributeError "NoneType object has no attribute anon")
      | some obj =>
        readAnonChunk fn vfuel version n (alistPut objects obj.id { obj with anon := true })

/-- Model of reader.py `readVerb`: the verb location line #obj:index, the
code block, then the code is attached to the verb at that index on the
object (a missing object is a parse error; Python list indexing applies,
so a bad index raises IndexError). -/
def readVerb (fn : String) (cfuel : Nat) (objects : List (Int × Obj)) :
    RM (List (Int × Obj)) := do
  let verbLocation ← readString
  if !(strHas verbLocation ":") then parseError fn "verb does not have seperator"
  else
    let cs := verbLocation.toList
    let left := cs.takeWhile (fun c => c ≠ ':')
    let right := (cs.dropWhile (fun c => c ≠ ':')).drop 1
    match pyIntOf? (String.mk (left.drop 1)) with
    | Option.none => rerr (.valueError ("invalid literal for int() with base 10: "
        ++ String.mk (left.drop 1)))
    | some objNumber =>
      match pyIntOf? (String.mk right) with
      | Option.none => rerr (.valueError ("invalid literal for int() with base 10: "
          ++ String.mk right))
      | some verbNumber => do
        let code ← readCode cfuel []
        match alistGet objects objNumber with
        | Option.none => parseError fn ("object " ++ intToStr objNumber ++ " not found")
        | some obj =>
          match pyListGet obj.verbs verbNumber with
          | Option.none => rerr (.indexError "list index out of range")
          | some verb =>
            match pyListSet obj.verbs verbNumber
                { verb with object := objNumber, code := some code } with
            | Option.none => rerr (.indexError "list assignment index out of range")
            | some verbs2 =>
              pure (alistPut objects objNumber { obj with verbs := verbs2 })

/-- Model of reader.py `readVerbs`: total_verbs verb-code records. -/
def readVerbsLoop (fn : String) (cfuel : Nat) :
    Nat → List (Int × Obj) → RM (List (Int × Obj))
  | 0, objects => pure objects
  | n + 1, objects => do
    let objects2 ← readVerb fn cfuel objects
    readVerbsLoop fn cfuel n objects2

/-- Model of reader.py `parse_v4`: section order total_objects,
total_verbs, dummy line, players, objects, verbs, clocks, task queue,
suspended tasks, connections. -/
def parse_v4 (fn : String) (vfuel cfuel afuel : Nat) (versionstring : String) :
    RM Db := do
  let total_objects ← readInt
  let total_verbs ← readInt
  let _dummy ← readString
  let (total_players, players) ← readPlayers
  let objects ← readObjectsLoop fn vfuel 4 total_objects.toNat []
  let objects2 ← readVerbsLoop fn cfuel total_verbs.toNat objects
  let clocks ← readClocks fn
  let queuedTasks ← readTaskQueue fn vfuel cfuel 4
  let suspendedTasks ← readSuspendedTasks fn vfuel cfuel 4
  let connections ← readConnections fn
  let _ := afuel
  pure { Db.init with
    versionstring := versionstring
    version := 4
    total_objects := total_objects
    total_verbs := total_verbs
    total_players := total_players
    players := players
    objects := objects2
    clocks := clocks
    queuedTasks := queuedTasks
    suspendedTasks := suspendedTasks
    connections := connections }

/-- Model of reader.py `parse_v17`: section order players, pending
finalizations, clocks, task queue, suspended tasks, interrupted tasks,
connections, total_objects, objects, anonymous objects (the version is at
least DBV_Anon), total_verbs, verbs. -/
def parse_v17 (fn : String) (vfuel cfuel afuel : Nat) (versionstring : String) :
    RM Db := do
  let (total_players, players) ← readPlayers
  let finalizations ← readPending fn vfuel
  let clocks ← readClocks fn
  let queuedTasks ← readTaskQueue fn vfuel cfuel 17
  let suspendedTasks ← readSuspendedTasks fn vfuel cfuel 17
  let interruptedTasks ← readInterruptedTasks fn vfuel cfuel 17
  let connections ← readConnections fn
  let total_objects ← readInt
  let objects ← readObjectsLoop fn vfuel 17 total_objects.toNat []
  let objects2 ← if 13 ≤ (17 : Int) then readAnonObjects fn vfuel 17 afuel objects
    else pure objects
  let total_verbs ← readInt
  let objects3 ← readVerbsLoop fn cfuel total_verbs.toNat objects2
  pure { Db.init with
    versionstring := versionstring
    version := 17
    total_objects := total_objects
    total_verbs := total_verbs
    total_players := total_players
    players := players
    finalizations := finalizations
    objects := objects3
    clocks := clocks
    queuedTasks := queuedTasks
    suspendedTasks := suspendedTasks
    interruptedTasks := interruptedTasks
    connections := connections }

/-- Model of reader.py `Reader.parse`: version line, dispatch on the
declared version; 4 and 17 are the only accepted values, anything else is
the Unknown db version parse error. -/
def parse (fn : String) (vfuel cfuel afuel : Nat) : RM Db := do
  let versionstring ← readString
  match matchVersion versionstring with
  | Option.none => parseError fn "Invalid version string"
  | some version =>
    if version = 4 then parse_v4 fn vfuel cfuel afuel versionstring
    else if version = 17 then parse_v17 fn vfuel cfuel afuel versionstring
    else parseError fn ("Unknown db version " ++ intToStr version)

/-- Model of reader.py `load`: open in text mode (universal newlines) and
parse.  All loop fuels are two more than the number of lines, which
dominates every loop the parser can run on the stream, since each loop
iteration consumes at least one line. -/
def load (fn : String) (stream : String) : Except PyErr Db :=
  let ls := uLines stream
  match parse fn (ls.length + 2) (ls.length + 2) (ls.length + 2) ⟨ls, 0⟩ with
  | .ok (db, _) => .ok db
  | .error e => .error e

/-! ## Writer (writer.py) -/

/-- Approximate model of Python repr, used only where writer.py formats a
whole value into a header line (the suspended-task header); the scalar
cases are faithful, container and sentinel renderings are approximations
never evaluated by any theorem below. -/
def pyReprF : Nat → PyValue → String
  | 0, _ => ""
  | fuel + 1, v =>
    match v with
    | .int i => intToStr i
    | .str s => "\x27" ++ s ++ "\x27"
    | .obj i => intToStr i
    | .anon i => intToStr i
    | .err i => intToStr i
    | .Catch i => intToStr i
    | .float .nan => "nan"
    | .float (.finite s) => s
    | .bool true => "True"
    | .bool false => "False"
    | .none => "None"
    | .clear => "<Clear instance>"
    | .clearClass => "<class Clear>"
    | .waifref i => "WaifReference(" ++ intToStr i ++ ")"
    | .list xs => "[" ++ String.intercalate ", " (xs.map (pyReprF fuel)) ++ "]"
    | .map xs => "\x7b" ++ String.intercalate ", "
        (xs.map fun p => pyReprF fuel p.1 ++ ": " ++ pyReprF fuel p.2) ++ "\x7d"

/-- Approximate model of Python str: like repr except on strings. -/
def pyStrF (fuel : Nat) (v : PyValue) : String :=
  match v with
  | .str s => s
  | _ => pyReprF fuel v

/-- Python format with the d code: int subclasses format as decimals,
anything else raises. -/
def fmtD (v : PyValue) : Except PyErr String :=
  match intLikeVal v with
  | some i => .ok (intToStr i)
  | Option.none => .error (.typeError "unsupported format spec d for this value")

/-- Lines of writer.py `writeCode`: the code verbatim, then a lone dot. -/
def writeCode : Option (List String) → Except PyErr (List String)
  | some code => .ok (code ++ ["."])
  | Option.none => .error (.typeError "NoneType object is not iterable")

/-- Lines of writer.py `writeVerbMetadata`. -/
def writeVerbMetadata (verb : Verb) : Except PyErr (List String) :=
  .ok [verb.name, intToStr verb.owner, intToStr verb.perms, intToStr verb.preps]

/-- Lines of writer.py `write_propdef`. -/
def write_propdef (vfuel : Nat) (prop : Propdef) : Except PyErr (List String) := do
  let v ← writeValueF vfuel prop.value
  .ok (v ++ [intToStr prop.owner, intToStr prop.perms])

/-- Lines of writer.py `write_properties`: the own names with their count,
then all propdefs with their count. -/
def write_properties (vfuel : Nat) (obj : Obj) : Except PyErr (List String) := do
  let defs ← writeSeq (write_propdef vfuel) obj.propdefs
  .ok ((intToStr obj.propnames.length :: obj.propnames)
    ++ (intToStr obj.propdefs.length :: defs))

/-- Lines of writer.py `writeObject`: a recycled object is one marker
line; otherwise the v17 object block, with a single parent written as a
bare value and several parents as a list. -/
def writeObject (vfuel : Nat) (obj : Obj) : Except PyErr (List String) := do
  if obj.recycled then .ok ["# " ++ intToStr obj.id ++ " recycled"]
  else do
    let loc ← writeValueF vfuel obj.location
    let lm ← writeValueF vfuel obj.last_move
    let cont ← writeValueF vfuel obj.contents
    let par ← match obj.parents with
      | [p] => writeValueF vfuel p
      | ps => writeValueF vfuel (.list ps)
    let ch ← writeValueF vfuel obj.children
    let verbs ← writeSeq writeVerbMetadata obj.verbs
    let props ← write_properties vfuel obj
    .ok (["#" ++ intToStr obj.id, obj.name, intToStr obj.flags, intToStr obj.owner]
      ++ loc ++ lm ++ cont ++ par ++ ch
      ++ (intToStr obj.verbs.length :: verbs) ++ props)

/-- Lines of writer.py `writePlayers`: count, then one player id per line
(written through writeString, so as bare decimals). -/
def writePlayers (db : Db) : Except PyErr (List String) :=
  .ok (intToStr db.players.length :: db.players.map intToStr)

/-- Lines of writer.py `writePending`. -/
def writePending (vfuel : Nat) (db : Db) : Except PyErr (List String) := do
  let vals ← writeSeq (writeValueF vfuel) db.finalizations
  .ok ((intToStr db.finalizations.length ++ " values pending finalization") :: vals)

/-- Lines of writer.py `writeClocks`. -/
def writeClocks (db : Db) : Except PyErr (List String) :=
  .ok ((intToStr db.clocks.length ++ " clocks") :: db.clocks)

/-- Lines of writer.py `writeRtEnv`. -/
def writeRtEnv (vfuel : Nat) (env : List (String × PyValue)) :
    Except PyErr (List String) := do
  let items ← writeSeq (fun p => do
    let v ← writeValueF vfuel p.2
    (.ok (p.1 :: v) : Except PyErr (List String))) env
  .ok ((intToStr env.length ++ " variables") :: items)

/-- Lines of writer.py `writeActivationAsPI`: the -111 sentinel value,
this and vloc as values, threaded as an int, the nine-integer activation
header (d formatting of the stored attributes, which raises on a value
that is not an int subclass), four historical placeholder lines, verb and
verbname. -/
def writeActivationAsPI (vfuel : Nat) (act : Activation) : Except PyErr (List String) := do
  let sentinel ← writeValueF vfuel (.int (-111))
  let thisV ← writeValueF vfuel act.this
  let vlocV ← writeValueF vfuel act.vloc
  let thisD ← fmtD act.this
  let vlocD ← fmtD act.vloc
  let header := thisD ++ " " ++ intToStr act.unused1 ++ " " ++ intToStr act.unused2
    ++ " " ++ intToStr act.player ++ " " ++ intToStr act.unused3
    ++ " " ++ intToStr act.programmer ++ " " ++ vlocD
    ++ " " ++ intToStr act.unused4 ++ " " ++ (if act.debug then "1" else "0")
  .ok (sentinel ++ thisV ++ vlocV ++ [intToStr act.threaded, header,
    "No", "More", "Parse", "Infos", act.verb, act.verbname])

/-- Lines of writer.py `writeActivation` (full frame form). -/
def writeActivation (vfuel : Nat) (act : Activation) : Except PyErr (List String) := do
  let code ← writeCode (some act.code)
  let rt ← writeRtEnv vfuel act.rtEnv
  let stack ← writeSeq (writeValueF vfuel) act.stack
  let pi ← writeActivationAsPI vfuel act
  let temp ← writeValueF vfuel act.temp
  let pcline := intToStr act.pc ++ " " ++ intToStr act.bi_func ++ " " ++ intToStr act.error
  .ok (("language version " ++ intToStr 17) :: code ++ rt
    ++ ((intToStr act.stack.length ++ " rt_stack slots in use") :: stack)
    ++ pi ++ temp ++ [pcline]
    ++ (if act.bi_func ≠ 0 then [act.func_name] else []))

/-- Lines of writer.py `writeVM`: the locals value, the header, then the
activations indexed zero to top (an out-of-range index raises). -/
def writeVM (vfuel : Nat) (vm : VM) : Except PyErr (List String) := do
  let locals ← writeValueF vfuel vm.locals
  let header := intToStr vm.top ++ " " ++ intToStr vm.vector ++ " "
    ++ intToStr vm.funcId ++ " " ++ intToStr vm.maxStackframes
  let frames ← writeSeq (fun i =>
    match vm.stack.get? i with
    | some act => writeActivation vfuel act
    | Option.none => .error (.indexError "list index out of range"))
    (List.range (vm.top + 1).toNat)
  .ok (locals ++ [header] ++ frames)

/-- Lines of writer.py `writeQueuedTask`. -/
def writeQueuedTask (vfuel cfuel : Nat) (task : QueuedTask) : Except PyErr (List String) := do
  let _ := cfuel
  let pi ← writeActivationAsPI vfuel task.activation
  let rt ← writeRtEnv vfuel task.rtEnv
  let code ← writeCode (some task.code)
  .ok ((intToStr task.unused ++ " " ++ intToStr task.firstLineno ++ " "
    ++ intToStr task.st ++ " " ++ intToStr task.id) :: pi ++ rt ++ code)

/-- Lines of writer.py `writeTaskQueue`. -/
def writeTaskQueue (vfuel cfuel : Nat) (db : Db) : Except PyErr (List String) := do
  let tasks ← writeSeq (writeQueuedTask vfuel cfuel) db.queuedTasks
  .ok ((intToStr db.queuedTasks.length ++ " queued tasks") :: tasks)

/-- Lines of writer.py `writeSuspendedTask`: note that the header template
interpolates the str of the stored Python value, not a type tag, into its
third field. -/
def writeSuspendedTask (vfuel : Nat) (task : SuspendedTask) : Except PyErr (List String) := do
  let vm ← writeVM vfuel task.vm
  .ok ((intToStr task.start_time ++ " " ++ intToStr task.id ++ " "
    ++ pyStrF vfuel task.value) :: vm)

/-- Lines of writer.py `writeSuspendedTasks`. -/
def writeSuspendedTasks (vfuel : Nat) (db : Db) : Except PyErr (List String) := do
  let tasks ← writeSeq (writeSuspendedTask vfuel) db.suspendedTasks
  .ok ((intToStr db.suspendedTasks.length ++ " suspended tasks") :: tasks)

/-- Lines of writer.py `writeInterruptedTask`. -/
def writeInterruptedTask (vfuel : Nat) (task : InterruptedTask) :
    Except PyErr (List String) := do
  let vm ← writeVM vfuel task.vm
  .ok ((intToStr task.id ++ " " ++ task.status) :: vm)

/-- Lines of writer.py `writeInterruptedTasks`. -/
def writeInterruptedTasks (vfuel : Nat) (db : Db) : Except PyErr (List String) := do
  let tasks ← writeSeq (writeInterruptedTask vfuel) db.interruptedTasks
  .ok ((intToStr db.interruptedTasks.length ++ " interrupted tasks") :: tasks)

/-- Lines of writer.py `writeConnections`: the writer always emits the
with-listeners form. -/
def writeConnections (db : Db) : Except PyErr (List String) :=
  .ok ((intToStr db.connections.length ++ " active connections with listeners")
    :: db.connections.map fun c => intToStr c.who ++ " " ++ intToStr c.listener)

/-- Lines of writer.py `writeObjects`: the non-anonymous objects with
their count. -/
def writeObjects (vfuel : Nat) (db : Db) : Except PyErr (List String) := do
  let objs := (db.objects.map Prod.snd).filter fun o => !o.anon
  let blocks ← writeSeq (writeObject vfuel) objs
  .ok (intToStr objs.length :: blocks)

/-- Lines of writer.py `writeAnons`: one collection holding all anonymous
objects, an i32 count followed by that many object blocks (the terminating
zero line is written separately by writeDatabase). -/
def writeAnons (vfuel : Nat) (db : Db) : Except PyErr (List String) := do
  let objs := (db.objects.map Prod.snd).filter fun o => o.anon
  let blocks ← writeSeq (writeObject vfuel) objs
  .ok (intToStr objs.length :: blocks)

/-- Lines of writer.py `writeVerb`: verb location #obj:index (index found
by list search for the first equal verb) and the code block. -/
def writeVerb (vfuel : Nat) (db : Db) (verb : Verb) : Except PyErr (List String) := do
  let _ := vfuel
  match alistGet db.objects verb.object with
  | Option.none => .error (.keyError (intToStr verb.object))
  | some object =>
    match object.verbs.indexOf? verb with
    | Option.none => .error (.valueError "verb is not in list")
    | some index => do
      let code ← writeCode verb.code
      .ok (("#" ++ intToStr verb.object ++ ":" ++ intToStr (index : Int)) :: code)

/-- Lines of writer.py `writeVerbs`: all verbs that carry code, in object
insertion order. -/
def writeVerbs (vfuel : Nat) (db : Db) : Except PyErr (List String) := do
  let verbs := ((db.objects.map fun p => p.2.verbs).join).filter
    fun v => !(v.code = Option.none)
  let blocks ← writeSeq (writeVerb vfuel db) verbs
  .ok (intToStr verbs.length :: blocks)

/-- Lines of writer.py `Writer.writeDatabase`: the version line is always
formatted with version 17, whatever the version of the loaded database
was; then players, pending, clocks, queued tasks, suspended tasks,
interrupted tasks, connections, objects, anonymous objects, the
terminating zero line, and verbs. -/
def writeDatabase (vfuel cfuel : Nat) (db : Db) : Except PyErr (List String) := do
  let players ← writePlayers db
  let pending ← writePending vfuel db
  let clocks ← writeClocks db
  let queue ← writeTaskQueue vfuel cfuel db
  let susp ← writeSuspendedTasks vfuel db
  let intr ← writeInterruptedTasks vfuel db
  let conns ← writeConnections db
  let objs ← writeObjects vfuel db
  let anons ← writeAnons vfuel db
  let verbs ← writeVerbs vfuel db
  .ok (("** LambdaMOO Database, Format Version " ++ intToStr 17 ++ " **")
    :: players ++ pending ++ clocks ++ queue ++ susp ++ intr ++ conns
    ++ objs ++ anons ++ [intToStr 0] ++ verbs)

/-- Model of writer.py `dump`: the emitted byte stream (rw.py opens the
sink with newline set to LF, so the written characters are the file
content verbatim). -/
def dump (vfuel cfuel : Nat) (db : Db) : Except PyErr String :=
  match writeDatabase vfuel cfuel db with
  | .ok ls => .ok (render ls)
  | .error e => .error e

/-! ## Matching lemmas for writer-shaped lines -/

theorem chopPre_self_append (p x : List Char) : chopPre p (p ++ x) = some x := by
  induction p with
  | nil => rfl
  | cons c t ih => simp [chopPre, ih]

theorem chopSuf_append_self (q x : List Char) : chopSuf q (x ++ q) = some x := by
  rw [chopSuf, List.reverse_append, chopPre_self_append]
  simp

theorem mk_toList (s : String) : String.mk s.toList = s := by cases s; rfl

theorem matchOneInt_format (pre suf : String) (i : Int) :
    matchOneInt pre suf (pre ++ intToStr i ++ suf) = some i := by
  have h1 : (pre ++ intToStr i ++ suf).toList
      = pre.toList ++ ((intToStr i).toList ++ suf.toList) := by
    rw [show (pre ++ intToStr i ++ suf).toList
      = (pre.toList ++ (intToStr i).toList) ++ suf.toList from rfl, List.append_assoc]
  rw [matchOneInt]
  simp only [h1, chopPre_self_append, chopSuf_append_self]
  rw [show ({ data := (intToStr i).toList } : String) = intToStr i from mk_toList _]
  exact pyIntOf?_intToStr i

theorem intToStr_ofNat (k : Nat) : intToStr (Int.ofNat k) = natToStr k := by
  rw [intToStr, if_neg (by exact not_lt.mpr (Int.ofNat_nonneg k))]
  simp

theorem natToStr_digits (n : Nat) : ∀ c ∈ (natToStr n).toList, c.isDigit = true := by
  intro c hc
  rcases Nat.eq_zero_or_pos n with h0 | hp
  · subst h0
    have : (natToStr 0).toList = ['0'] := by decide
    rw [this] at hc
    simp at hc
    subst hc
    decide
  · rw [natToStr, if_neg (by omega)] at hc
    have hc2 : c ∈ (natDigitsRev n).reverse := hc
    obtain ⟨d, hd, rfl⟩ := natDigitsRev_mem (List.mem_reverse.mp hc2)
    clear hc hc2
    revert hd
    revert d
    decide

theorem takeWhile_boundary {p : Char → Bool} {a : List Char} (c : Char) (ys : List Char)
    (ha : ∀ x ∈ a, p x = true) (hc : p c = false) :
    (a ++ c :: ys).takeWhile p = a ∧ (a ++ c :: ys).dropWhile p = c :: ys := by
  induction a with
  | nil => simp [List.takeWhile, List.dropWhile, hc]
  | cons x t ih =>
    have hx : p x = true := ha x (by simp)
    have ht := ih (fun y hy => ha y (by simp [hy]))
    simp [List.takeWhile, List.dropWhile, hx, ht.1, ht.2]

theorem matchConnCount_format (k : Nat) (tag : String)
    (htag : tag = "" ∨ tag = " with listeners") :
    matchConnCount (natToStr k ++ " active connections" ++ tag)
      = some (k, decide (tag = " with listeners")) := by
  simp only [matchConnCount]
  rw [show (natToStr k ++ " active connections" ++ tag).toList
    = (natToStr k).toList ++ (' ' :: ("active connections" ++ tag).toList) from by
      rw [show (natToStr k ++ " active connections" ++ tag).toList
        = ((natToStr k).toList ++ " active connections".toList) ++ tag.toList from rfl,
        List.append_assoc]
      rfl]
  obtain ⟨ht, _⟩ := takeWhile_boundary (p := fun c => c.isDigit) ' '
    (("active connections" ++ tag).toList) (natToStr_digits k) (by decide)
  rw [ht]
  rw [show pyNatOf? ({ data := (natToStr k).toList } : String) = some k from by
    rw [mk_toList]
    exact digitsNE_toList_natToStr k]
  rw [List.drop_left]
  rw [show (' ' :: ("active connections" ++ tag).toList)
    = " active connections".toList ++ tag.toList from by
      rcases htag with rfl | rfl <;> rfl]
  rw [chopPre_self_append]
  rcases htag with rfl | rfl <;> simp <;> decide

theorem repeat_readString_inv : ∀ (ls : List String) (acc rest : List String) (n : Nat),
    repeatRM readString ls.length acc ⟨ls ++ rest, n⟩
      = .ok (acc.reverse ++ ls, ⟨rest, n + ls.length⟩) := by
  intro ls
  induction ls with
  | nil => intro acc rest n; simp [repeatRM, RM_run_pure]
  | cons l t ih =>
    intro acc rest n
    rw [List.length_cons, repeatRM, RM_run_bind, List.cons_append, readString_cons]
    simp only [ih (l :: acc) rest (n + 1)]
    simp [List.append_assoc]
    omega

theorem repeat_readObjnum_inv : ∀ (ps : List Int) (acc : List Int) (rest : List String)
    (n : Nat), repeatRM readObjnum ps.length acc ⟨ps.map intToStr ++ rest, n⟩
      = .ok (acc.reverse ++ ps, ⟨rest, n + ps.length⟩) := by
  intro ps
  induction ps with
  | nil => intro acc rest n; simp [repeatRM, RM_run_pure]
  | cons p t ih =>
    intro acc rest n
    rw [List.length_cons, repeatRM, RM_run_bind, List.map_cons, List.cons_append,
      readObjnum_cons]
    simp only [ih (p :: acc) rest (n + 1)]
    simp [List.append_assoc]
    omega

theorem repeat_readValue_inv {fn : String} {wfuel rfuel : Nat} :
    ∀ (xs : List PyValue) (body : List String) (acc : List PyValue),
    (∀ x ∈ xs, wfValueF wfuel x = true) →
    writeSeq (writeValueF wfuel) xs = .ok body → body.length ≤ rfuel →
    ∀ rest n, repeatRM (readValue fn rfuel Option.none) xs.length acc ⟨body ++ rest, n⟩
      = .ok (acc.reverse ++ xs, ⟨rest, n + body.length⟩) := by
  intro xs
  induction xs with
  | nil =>
    intro body acc _ hw _ rest n
    rw [writeSeq] at hw
    cases hw
    simp [repeatRM, RM_run_pure]
  | cons x t ih =>
    intro body acc hwf hw hlen rest n
    obtain ⟨h1, h2, hx, ht, rfl⟩ := writeSeq_cons_inv hw
    rw [List.length_cons, repeatRM, RM_run_bind, List.append_assoc]
    simp only [readValue_inv fn wfuel rfuel x h1 (hwf x (by simp)) hx
      (by simp at hlen ⊢; omega) (h2 ++ rest) n]
    rw [ih h2 (x :: acc) (fun y hy => hwf y (by simp [hy])) ht
      (by simp at hlen ⊢; omega) rest (n + h1.length)]
    simp [List.append_assoc]
    omega

theorem intToStr_noSpace (i : Int) : ∀ c ∈ (intToStr i).toList, ¬(c = ' ') := by
  intro c hc heq
  subst heq
  rw [intToStr] at hc
  have hdig : ∀ m : Nat, (' ' : Char) ∈ (natToStr m).toList → False := by
    intro m hm
    have := natToStr_digits m ' ' hm
    simp at this
  split at hc
  · rw [show (("-" : String) ++ natToStr i.natAbs).toList
      = '-' :: (natToStr i.natAbs).toList from rfl] at hc
    rcases List.mem_cons.mp hc with h | h
    · cases h
    · exact hdig _ h
  · exact hdig _ hc

theorem splitSpAux_clean : ∀ (a : List Char) (acc : List Char),
    (∀ c ∈ a, ¬(c = ' ')) →
    ∀ rest, splitSpAux (a ++ ' ' :: rest) acc
      = String.mk (acc.reverse ++ a) :: splitSpAux rest [] := by
  intro a
  induction a with
  | nil => intro acc _ rest; simp [splitSpAux]
  | cons c t ih =>
    intro acc ha rest
    have hc : ¬(c = ' ') := ha c (by simp)
    rw [List.cons_append, show splitSpAux (c :: (t ++ ' ' :: rest)) acc
      = splitSpAux (t ++ ' ' :: rest) (c :: acc) from by
        rw [splitSpAux.eq_def]
        split <;> simp_all]
    rw [ih (c :: acc) (fun x hx => ha x (by simp [hx])) rest]
    simp

theorem splitSpAux_last : ∀ (b : List Char) (acc : List Char), (∀ c ∈ b, ¬(c = ' ')) →
    splitSpAux b acc = [String.mk (acc.reverse ++ b)] := by
  intro b
  induction b with
  | nil => intro acc _; simp [splitSpAux]
  | cons c t ih =>
    intro acc hb
    have hc : ¬(c = ' ') := hb c (by simp)
    rw [show splitSpAux (c :: t) acc = splitSpAux t (c :: acc) from by
      rw [splitSpAux.eq_def]
      split <;> simp_all]
    rw [ih (c :: acc) (fun x hx => hb x (by simp [hx]))]
    simp

theorem splitSp_pair (a b : String) (ha : ∀ c ∈ a.toList, ¬(c = ' '))
    (hb : ∀ c ∈ b.toList, ¬(c = ' ')) : splitSp (a ++ " " ++ b) = [a, b] := by
  rw [splitSp, show (a ++ " " ++ b).toList = a.toList ++ ' ' :: b.toList from by
    rw [show (a ++ " " ++ b).toList = (a.toList ++ [' ']) ++ b.toList from rfl,
      List.append_assoc]
    rfl]
  rw [splitSpAux_clean a.toList [] ha b.toList, splitSpAux_last b.toList [] hb]
  simp [mk_toList]

theorem readConnection_pair (a b : Int) (t : List String) (n : Nat) :
    readConnection true ⟨(intToStr a ++ " " ++ intToStr b) :: t, n⟩
      = .ok (⟨a, b⟩, ⟨t, n + 1⟩) := by
  rw [readConnection]
  simp only [RM_run_bind, readString_cons,
    splitSp_pair (intToStr a) (intToStr b) (intToStr_noSpace a) (intToStr_noSpace b),
    pyIntOf?_intToStr]
  rfl

theorem repeat_readConnection_inv : ∀ (cs : List Connection) (acc : List Connection)
    (rest : List String) (n : Nat),
    repeatRM (readConnection true) cs.length acc
      ⟨(cs.map fun c => intToStr c.who ++ " " ++ intToStr c.listener) ++ rest, n⟩
      = .ok (acc.reverse ++ cs, ⟨rest, n + cs.length⟩) := by
  intro cs
  induction cs with
  | nil => intro acc rest n; simp [repeatRM, RM_run_pure]
  | cons c t ih =>
    intro acc rest n
    rw [List.length_cons, repeatRM, RM_run_bind, List.map_cons, List.cons_append,
      readConnection_pair]
    simp only [ih (c :: acc) rest (n + 1)]
    simp [List.append_assoc]
    omega

theorem cleanLine_append (a b : String) :
    cleanLine (a ++ b) = (cleanLine a && cleanLine b) := by
  rw [cleanLine, cleanLine, cleanLine,
    show (a ++ b).toList = a.toList ++ b.toList from rfl, List.all_append]

theorem matchOneInt_format0 (suf : String) (i : Int) :
    matchOneInt "" suf (intToStr i ++ suf) = some i :=
  matchOneInt_format "" suf i

theorem readPlayers_inv (pl : List Int) (rest : List String) (n : Nat) :
    readPlayers ⟨intToStr (pl.length : Int) :: (pl.map intToStr ++ rest), n⟩
      = .ok ((↑pl.length, pl), ⟨rest, n + 1 + pl.length⟩) := by
  rw [readPlayers]
  simp only [RM_run_bind, readInt_cons]
  rw [show ((pl.length : Int)).toNat = pl.length from rfl]
  simp only [repeat_readObjnum_inv pl [] rest (n + 1), List.reverse_nil, List.nil_append]
  rw [if_pos trivial]
  rfl

theorem readPending_inv (fn : String) (wfuel vfuel : Nat) (fin : List PyValue)
    (fbody rest : List String) (n : Nat)
    (hwf : ∀ x ∈ fin, wfValueF wfuel x = true)
    (hb : writeSeq (writeValueF wfuel) fin = .ok fbody)
    (hlen : fbody.length ≤ vfuel) :
    readPending fn vfuel
        ⟨(intToStr (fin.length : Int) ++ " values pending finalization")
          :: (fbody ++ rest), n⟩
      = .ok (fin, ⟨rest, n + 1 + fbody.length⟩) := by
  rw [readPending]
  simp only [RM_run_bind, readString_cons, matchOneInt_format0]
  rw [show ((fin.length : Int)).toNat = fin.length from rfl]
  simp only [repeat_readValue_inv fin fbody [] hwf hb hlen rest (n + 1),
    List.reverse_nil, List.nil_append]

theorem readClocks_inv (fn : String) (cl rest : List String) (n : Nat) :
    readClocks fn ⟨(intToStr (cl.length : Int) ++ " clocks") :: (cl ++ rest), n⟩
      = .ok (cl, ⟨rest, n + 1 + cl.length⟩) := by
  rw [readClocks]
  simp only [RM_run_bind, readString_cons, matchOneInt_format0]
  rw [show ((cl.length : Int)).toNat = cl.length from rfl]
  simp only [repeat_readString_inv cl [] rest (n + 1), List.reverse_nil, List.nil_append]

theorem readTaskQueue_zero (fn : String) (vfuel cfuel : Nat) (ver : Int)
    (rest : List String) (n : Nat) :
    readTaskQueue fn vfuel cfuel ver ⟨(intToStr 0 ++ " queued tasks") :: rest, n⟩
      = .ok ([], ⟨rest, n + 1⟩) := by
  rw [readTaskQueue]
  simp only [RM_run_bind, readString_cons, matchOneInt_format0]
  rfl

theorem readSuspendedTasks_zero (fn : String) (vfuel cfuel : Nat) (ver : Int)
    (rest : List String) (n : Nat) :
    readSuspendedTasks fn vfuel cfuel ver
        ⟨(intToStr 0 ++ " suspended tasks") :: rest, n⟩
      = .ok ([], ⟨rest, n + 1⟩) := by
  rw [readSuspendedTasks]
  simp only [RM_run_bind, readString_cons, matchOneInt_format0]
  rfl

theorem readInterruptedTasks_zero (fn : String) (vfuel cfuel : Nat) (ver : Int)
    (rest : List String) (n : Nat) :
    readInterruptedTasks fn vfuel cfuel ver
        ⟨(intToStr 0 ++ " interrupted tasks") :: rest, n⟩
      = .ok ([], ⟨rest, n + 1⟩) := by
  rw [readInterruptedTasks]
  simp only [RM_run_bind, readString_cons, matchOneInt_format0]
  rfl

theorem readConnections_inv (fn : String) (cn : List Connection)
    (rest : List String) (n : Nat) :
    readConnections fn
        ⟨(intToStr (cn.length : Int) ++ " active connections with listeners")
          :: ((cn.map fun c => intToStr c.who ++ " " ++ intToStr c.listener) ++ rest), n⟩
      = .ok (cn, ⟨rest, n + 1 + cn.length⟩) := by
  rw [readConnections]
  simp only [RM_run_bind, readString_cons]
  rw [show intToStr (cn.length : Int) ++ " active connections with listeners"
      = natToStr cn.length ++ " active connections" ++ " with listeners" from by
    rw [show intToStr (cn.length : Int) = natToStr cn.length from intToStr_ofNat cn.length,
      String.append_assoc]
    rfl]
  rw [matchConnCount_format cn.length " with listeners" (Or.inr rfl)]
  rw [show (decide ((" with listeners" : String) = " with listeners")) = true from by decide]
  simp only [repeat_readConnection_inv cn [] rest (n + 1),
    List.reverse_nil, List.nil_append]

theorem readAnonObjects_zero (fn : String) (vfuel : Nat) (ver : Int) (afuel : Nat)
    (objs : List (Int × Obj)) (rest : List String) (n : Nat) :
    readAnonObjects fn vfuel ver (afuel + 1) objs ⟨intToStr 0 :: rest, n⟩
      = .ok (objs, ⟨rest, n + 1⟩) := by
  rw [readAnonObjects]
  simp only [RM_run_bind, readInt_cons]
  rfl

def EmptyObjectsV17 (wfuel : Nat) (db : Db) : Prop :=
  db.versionstring = "** LambdaMOO Database, Format Version 17 **"
  ∧ db.version = 17
  ∧ db.total_objects = 0
  ∧ db.total_verbs = 0
  ∧ db.total_players = db.players.length
  ∧ db.objects = []
  ∧ db.waifs = []
  ∧ db.queuedTasks = []
  ∧ db.suspendedTasks = []
  ∧ db.interruptedTasks = []
  ∧ (∀ v ∈ db.finalizations, wfValueF wfuel v = true)
  ∧ (∀ c ∈ db.clocks, cleanLine c = true)

/-- The lines writeDatabase emits for a database in the EmptyObjectsV17
class: version line (always 17), players, pending finalizations, clocks,
the three empty task sections, connections, the zero object count, the
zero anonymous-chunk count, the terminating zero, and the zero verb
count. -/
def emptyDumpLines (pl : List Int) (finLen : Nat) (fbody : List String)
    (cl : List String) (cn : List Connection) : List String :=
  ("** LambdaMOO Database, Format Version " ++ intToStr 17 ++ " **")
    :: ((intToStr (pl.length : Int) :: pl.map intToStr)
    ++ ((intToStr (finLen : Int) ++ " values pending finalization") :: fbody)
    ++ ((intToStr (cl.length : Int) ++ " clocks") :: cl)
    ++ [intToStr 0 ++ " queued tasks"]
    ++ [intToStr 0 ++ " suspended tasks"]
    ++ [intToStr 0 ++ " interrupted tasks"]
    ++ ((intToStr (cn.length : Int) ++ " active connections with listeners")
      :: cn.map fun c => intToStr c.who ++ " " ++ intToStr c.listener)
    ++ [intToStr 0]
    ++ [intToStr 0]
    ++ [intToStr 0]
    ++ [intToStr 0])

/-- C1 (amended): the load-dump-load round trip is idempotent on the
version-17 fragment captured by EmptyObjectsV17 (no objects, waifs or
tasks; clean clock lines; well-formed finalization values): dumping such
a database and loading the dump returns the database itself, field for
field.  The original claim, quantified over every file accepted by load,
is refuted by C1_counterexample: version-4 files load but dump as
version 17. -/
theorem C1_roundtrip (fn : String) : ∀ wfuel db, EmptyObjectsV17 wfuel db →
    ∃ stream, dump wfuel wfuel db = .ok stream ∧ load fn stream = .ok db := by
  intro wfuel db hdb
  obtain ⟨vs, v, to2, tv, tp, fin, cl, obj, qt, st2, it, cn, wfs, pl⟩ := db
  obtain ⟨h1, h2, h3, h4, h5, h6, h7, h8, h9, h10, h11, h12⟩ := hdb
  simp only at h1 h2 h3 h4 h5 h6 h7 h8 h9 h10 h11 h12
  subst h1 h2 h3 h4 h5 h6 h7 h8 h9 h10
  obtain ⟨fbody, hfbody⟩ := writeSeq_ok (fun x hx => writeValueF_ok (h11 x hx))
  have hw : writeDatabase wfuel wfuel ⟨"** LambdaMOO Database, Format Version 17 **", 17,
      0, 0, ↑pl.length, fin, cl, [], [], [], [], cn, [], pl⟩
      = .ok (emptyDumpLines pl fin.length fbody cl cn) := by
    rw [writeDatabase, emptyDumpLines]
    simp only [writePlayers, writePending, hfbody, writeClocks, writeTaskQueue,
      writeSuspendedTasks, writeInterruptedTasks, writeConnections, writeObjects,
      writeAnons, writeVerbs, writeSeq, except_run_bind, List.map_nil, List.filter_nil,
      List.map, List.length_nil, List.join, List.length_map, Nat.cast_zero]
    rfl
  have hfclean : ∀ s ∈ fbody, cleanLine s = true :=
    writeSeq_clean hfbody (fun x hx wl hwl => writeValueF_clean (h11 x hx) hwl)
  have hclean : ∀ s ∈ emptyDumpLines pl fin.length fbody cl cn, cleanLine s = true := by
    refine List.all_eq_true.mp ?_
    rw [emptyDumpLines]
    simp only [List.all_cons, List.all_append, List.all_map, Bool.and_eq_true,
      cleanLine_append, cleanLine_intToStr, Bool.true_and, List.all_nil, Function.comp]
    and_intros
    all_goals first
      | decide
      | trivial
      | (refine List.all_eq_true.mpr ?_
         intro s hs
         first
           | (obtain ⟨a, ha, rfl⟩ := List.mem_map.mp hs
              exact cleanLine_intToStr a)
           | exact hfclean s hs
           | exact h12 s hs
           | (obtain ⟨c, hc, rfl⟩ := List.mem_map.mp hs
              rw [cleanLine_append, cleanLine_append, cleanLine_intToStr, cleanLine_intToStr]
              decide))
  refine ⟨render (emptyDumpLines pl fin.length fbody cl cn), by simp only [dump, hw], ?_⟩
  have hflen : fbody.length ≤ (emptyDumpLines pl fin.length fbody cl cn).length + 2 := by
    simp only [emptyDumpLines, List.length_cons, List.length_append, List.length_map]
    omega
  simp only [load, uLines_render hclean]
  have hE : emptyDumpLines pl fin.length fbody cl cn
      = ("** LambdaMOO Database, Format Version " ++ intToStr 17 ++ " **")
        :: intToStr (pl.length : Int) :: (pl.map intToStr
        ++ ((intToStr (fin.length : Int) ++ " values pending finalization")
          :: (fbody
        ++ ((intToStr (cl.length : Int) ++ " clocks")
          :: (cl
        ++ ((intToStr 0 ++ " queued tasks")
          :: (intToStr 0 ++ " suspended tasks")
          :: (intToStr 0 ++ " interrupted tasks")
          :: ((intToStr (cn.length : Int) ++ " active connections with listeners")
          :: ((cn.map fun c => intToStr c.who ++ " " ++ intToStr c.listener)
        ++ (intToStr 0 :: intToStr 0 :: intToStr 0 :: intToStr 0 :: []))))))))) := by
    rw [emptyDumpLines]
    simp only [List.append_assoc, List.cons_append, List.nil_append]
  rw [hE] at hflen ⊢
  rw [parse]
  simp only [RM_run_bind, readString_cons, matchVersion, matchOneInt_format]
  rw [if_neg (by decide), if_pos trivial]
  rw [parse_v17]
  simp only [RM_run_bind, readPlayers_inv]
  simp only [readPending_inv fn wfuel _ fin fbody _ _ h11 hfbody hflen]
  simp only [readClocks_inv, readTaskQueue_zero, readSuspendedTasks_zero,
    readInterruptedTasks_zero, readConnections_inv]
  simp only [readInt_cons, Int.toNat_zero, readObjectsLoop, RM_run_pure]
  rw [if_pos (by decide : (13 : Int) ≤ 17)]
  simp only [show ∀ m : Nat, m + 2 = (m + 1) + 1 from fun m => rfl]
  simp only [RM_run_bind, readAnonObjects_zero, readInt_cons, Int.toNat_zero,
    readVerbsLoop, RM_run_pure]
  rfl

/-- A minimal version-4 database file accepted by load: no objects, no
verbs, no players, no clocks, no tasks, no connections. -/
def v4minimal : String :=
  "** LambdaMOO Database, Format Version 4 **\n0\n0\ndummy\n0\n0 clocks\n0 queued tasks\n0 suspended tasks\n0 active connections\n"

/-- C1: counterexample.  The round trip is not idempotent on every file
accepted by load: the minimal version-4 file loads with version 4, but
writeDatabase always writes a version-17 header, so dumping and reloading
yields a database whose version (and versionstring) differ from the
first load.  -/
theorem C1_counterexample :
    ∃ db1, load "minimal.db" v4minimal = .ok db1 ∧
      ∃ s2, dump 8 8 db1 = .ok s2 ∧
        ∃ db2, load "minimal.db" s2 = .ok db2 ∧
          db1.version = 4 ∧ db2.version = 17 ∧ db2 ≠ db1 := by
  refine ⟨_, rfl, _, rfl, _, rfl, rfl, rfl, ?_⟩
  intro h
  exact absurd (congrArg Db.version h) (by decide)

/-- A concrete version-17 database with players, a pending finalization,
a clock line, and a connection, but no objects, waifs or tasks. -/
def c1db : Db :=
  { Db.init with
    versionstring := "** LambdaMOO Database, Format Version 17 **"
    version := 17
    total_players := 1
    players := [3]
    finalizations := [PyValue.int 5]
    clocks := ["obsolete clock line"]
    connections := [⟨7, 9⟩] }

/-- Witness for C1_roundtrip at the concrete database c1db with writer
fuel 1. -/
theorem C1_witness :
    ∃ stream, dump 1 1 c1db = .ok stream ∧ load "w.db" stream = .ok c1db :=
  C1_roundtrip "w.db" 1 c1db
    ⟨rfl, rfl, rfl, rfl, by decide, rfl, rfl, rfl, rfl, rfl, by decide, by decide⟩

/-! ## Property operations (database.py MooDatabase) -/

/-- isinstance(v, Clear): true only for a Clear instance, never for the
bare class object (which set_property mistakenly stores, see
set_property). -/
def isinstanceClear (v : PyValue) : Bool :=
  match v with
  | .clear => true
  | _ => false

/-- Dict lookup of a Value key against the int-keyed objects table.  An
int and its subclasses (ObjNum, Anon, Err, _Catch) and bool hash as the
int, so they hit an int key; other hashable values miss; list and map
keys raise TypeError.  (Cut-off: a float key equal to an int, e.g. 1.0,
would hit in Python but misses here, floats being carried as text.) -/
def pyKey? (v : PyValue) : Except PyErr (Option Int) :=
  match v with
  | .int i => .ok (some i)
  | .obj i => .ok (some i)
  | .anon i => .ok (some i)
  | .err i => .ok (some i)
  | .Catch i => .ok (some i)
  | .bool b => .ok (some (if b then 1 else 0))
  | .list _ => .error (.typeError "unhashable type: list")
  | .map _ => .error (.typeError "unhashable type: dict")
  | _ => .ok Option.none

/-- self.objects.get(parent_id) with a Value key. -/
def objGet? (objects : List (Int × Obj)) (k : PyValue) : Except PyErr (Option Obj) :=
  match pyKey? k with
  | .error e => .error e
  | .ok Option.none => .ok Option.none
  | .ok (some i) => .ok (alistGet objects i)

/-- Model of MooDatabase._find_property_index: the property's first index
in the object's own propnames, else the first index found along the
parents, depth first in parent order; a missing parent is skipped.  The
fuel models Python's recursion limit on cyclic parent graphs. -/
def findPropIdx (objects : List (Int × Obj)) : Nat → Obj → String → Except PyErr (Option Nat)
  | 0, _, _ => .error .fuel
  | fuel + 1, obj, name =>
    if obj.propnames.contains name then .ok (some (obj.propnames.indexOf name))
    else
      obj.parents.foldl
        (fun acc pid =>
          match acc with
          | .ok Option.none =>
            match objGet? objects pid with
            | .error e => .error e
            | .ok Option.none => .ok Option.none
            | .ok (some parent) => findPropIdx objects fuel parent name
          | r => r)
        (.ok Option.none)

/-- obj.propdefs[i].value = v: the read of propdefs[i] raises IndexError
when i is out of range, else the entry's value field is replaced. -/
def setPropdefValue (pds : List Propdef) (i : Nat) (v : PyValue) :
    Except PyErr (List Propdef) :=
  match pds.get? i with
  | Option.none => .error (.indexError "list index out of range")
  | some pd => .ok (pds.set i { pd with value := v })

/-- A mutating database operation: the raised exception if any, and the
objects table as the operation leaves it (Python mutates in place, so a
raise after a write leaves the write behind). -/
abbrev MutRes : Type := Option PyErr × List (Int × Obj)

/-- Model of MooDatabase._update_descendants_clear_properties: walk the
children of obj_id (self.objects[obj_id] and self.objects[child_id] are
plain indexing, so a missing id raises KeyError); a child whose found
propdefs slot holds a Clear instance gets the value written there and is
recursed into. -/
def updateDescendantsClearProperties :
    Nat → List (Int × Obj) → Int → String → PyValue → MutRes
  | 0, objs, _, _, _ => (some .fuel, objs)
  | fuel + 1, objs, oid, name, value =>
    match alistGet objs oid with
    | Option.none => (some (.keyError (intToStr oid)), objs)
    | some o =>
      match o.children with
      | .list kids =>
        kids.foldl
          (fun acc cid =>
            match acc with
            | (some e, objs2) => (some e, objs2)
            | (Option.none, objs2) =>
              match pyKey? cid with
              | .error e => (some e, objs2)
              | .ok Option.none => (some (.keyError "child id"), objs2)
              | .ok (some k) =>
                match alistGet objs2 k with
                | Option.none => (some (.keyError (intToStr k)), objs2)
                | some child =>
                  match findPropIdx objs2 fuel child name with
                  | .error e => (some e, objs2)
                  | .ok Option.none => (Option.none, objs2)
                  | .ok (some i) =>
                    match child.propdefs.get? i with
                    | Option.none => (some (.indexError "list index out of range"), objs2)
                    | some pd =>
                      if isinstanceClear pd.value then
                        updateDescendantsClearProperties fuel
                          (alistPut objs2 k
                            { child with propdefs := child.propdefs.set i { pd with value := value } })
                          k name value
                      else (Option.none, objs2))
          (Option.none, objs)
      | _ => (some (.typeError "children is not iterable"), objs)

/-- Model of MooDatabase.set_property.  A missing object or an
unresolvable property name raises ValueError before any write.  A Clear
instance as value stores the bare Clear class in the slot (the source
writes `Clear`, not `Clear()`); any other value is stored and the clear
slots of descendants are updated. -/
def set_property (fuel : Nat) (objs : List (Int × Obj)) (oid : Int) (name : String)
    (value : PyValue) : MutRes :=
  match alistGet objs oid with
  | Option.none => (some (.valueError ("Object " ++ intToStr oid ++ " not found")), objs)
  | some o =>
    match findPropIdx objs fuel o name with
    | .error e => (some e, objs)
    | .ok Option.none =>
      (some (.valueError ("Property " ++ name ++ " not defined on object "
        ++ intToStr oid ++ " or its ancestors")), objs)
    | .ok (some i) =>
      if isinstanceClear value then
        match setPropdefValue o.propdefs i .clearClass with
        | .error e => (some e, objs)
        | .ok pds => (Option.none, alistPut objs oid { o with propdefs := pds })
      else
        match setPropdefValue o.propdefs i value with
        | .error e => (some e, objs)
        | .ok pds =>
          updateDescendantsClearProperties fuel
            (alistPut objs oid { o with propdefs := pds }) oid name value

/-- Model of MooDatabase._resolve_property_value: the slot's value if it
is not a Clear instance, else the first parent that knows the property
resolves it recursively; with no such parent the bare Clear class is
returned (the source's `return Clear`). -/
def resolvePropertyValue (objects : List (Int × Obj)) :
    Nat → Obj → String → Nat → Except PyErr PyValue
  | 0, _, _, _ => .error .fuel
  | fuel + 1, obj, name, i =>
    match obj.propdefs.get? i with
    | Option.none => .error (.indexError "list index out of range")
    | some pd =>
      if isinstanceClear pd.value then
        match obj.parents.foldl
          (fun (acc : Except PyErr (Option PyValue)) pid =>
            match acc with
            | .ok Option.none =>
              match objGet? objects pid with
              | .error e => .error e
              | .ok Option.none => .ok Option.none
              | .ok (some parent) =>
                match findPropIdx objects fuel parent name with
                | .error e => .error e
                | .ok Option.none => .ok Option.none
                | .ok (some pi2) =>
                  match resolvePropertyValue objects fuel parent name pi2 with
                  | .error e => .error e
                  | .ok v => .ok (some v)
            | r => r)
          (.ok Option.none) with
        | .error e => .error e
        | .ok (some v) => .ok v
        | .ok Option.none => .ok .clearClass
      else .ok pd.value

/-- Model of MooDatabase.get_property: ValueError when the object is
missing or the name resolves nowhere, else the resolved value. -/
def get_property (fuel : Nat) (objs : List (Int × Obj)) (oid : Int) (name : String) :
    Except PyErr PyValue :=
  match alistGet objs oid with
  | Option.none => .error (.valueError ("Object " ++ intToStr oid ++ " not found"))
  | some o =>
    match findPropIdx objs fuel o name with
    | .error e => .error e
    | .ok Option.none =>
      .error (.valueError ("Property " ++ name ++ " not defined on object "
        ++ intToStr oid ++ " or its ancestors"))
    | .ok (some i) => resolvePropertyValue objs fuel o name i

/-- Model of MooDatabase._update_descendants_property_name: every child
whose found index for the old name exists gets its propnames slot at
that index set to the new name and is recursed into. -/
def updateDescendantsPropertyName :
    Nat → List (Int × Obj) → Int → String → String → MutRes
  | 0, objs, _, _, _ => (some .fuel, objs)
  | fuel + 1, objs, oid, old, new =>
    match alistGet objs oid with
    | Option.none => (some (.keyError (intToStr oid)), objs)
    | some o =>
      match o.children with
      | .list kids =>
        kids.foldl
          (fun acc cid =>
            match acc with
            | (some e, objs2) => (some e, objs2)
            | (Option.none, objs2) =>
              match pyKey? cid with
              | .error e => (some e, objs2)
              | .ok Option.none => (some (.keyError "child id"), objs2)
              | .ok (some k) =>
                match alistGet objs2 k with
                | Option.none => (some (.keyError (intToStr k)), objs2)
                | some child =>
                  match findPropIdx objs2 fuel child old with
                  | .error e => (some e, objs2)
                  | .ok Option.none => (Option.none, objs2)
                  | .ok (some i) =>
                    match child.propnames.get? i with
                    | Option.none => (some (.indexError "list assignment index out of range"), objs2)
                    | some _ =>
                      updateDescendantsPropertyName fuel
                        (alistPut objs2 k { child with propnames := child.propnames.set i new })
                        k old new)
          (Option.none, objs)
      | _ => (some (.typeError "children is not iterable"), objs)

/-- Model of MooDatabase.rename_property: ValueError when the object is
missing, the old name resolves nowhere, or the new name already resolves;
else the found propnames slot is set to the new name and the rename
cascades through descendants. -/
def rename_property (fuel : Nat) (objs : List (Int × Obj)) (oid : Int)
    (old new : String) : MutRes :=
  match alistGet objs oid with
  | Option.none => (some (.valueError ("Object " ++ intToStr oid ++ " not found")), objs)
  | some o =>
    match findPropIdx objs fuel o old with
    | .error e => (some e, objs)
    | .ok Option.none =>
      (some (.valueError ("Property " ++ old ++ " not found on object " ++ intToStr oid)), objs)
    | .ok (some i) =>
      match findPropIdx objs fuel o new with
      | .error e => (some e, objs)
      | .ok (some _) =>
        (some (.valueError ("Property " ++ new ++ " already exists on object " ++ intToStr oid)), objs)
      | .ok Option.none =>
        match o.propnames.get? i with
        | Option.none => (some (.indexError "list assignment index out of range"), objs)
        | some _ =>
          updateDescendantsPropertyName fuel
            (alistPut objs oid { o with propnames := o.propnames.set i new }) oid old new

/-! ## Concrete databases for the property-operation claims -/

/-- Ancestor A: defines property x at position 0 with value 7; its child
is object 2. -/
def c3A : Obj :=
  { id := 1, name := "A", flags := 0, owner := 0,
    location := .obj (-1), parents := [],
    children := .list [.obj 2], last_move := .obj (-1),
    contents := .list [], verbs := [],
    propnames := ["x"], propdefs := [⟨.int 7, 0, 0⟩],
    anon := false, recycled := false }

/-- Descendant B: no own propnames, one clear propdefs slot, parent A. -/
def c3B : Obj :=
  { id := 2, name := "B", flags := 0, owner := 0,
    location := .obj (-1), parents := [.obj 1],
    children := .list [], last_move := .obj (-1),
    contents := .list [], verbs := [],
    propnames := [], propdefs := [⟨.clear, 0, 0⟩],
    anon := false, recycled := false }

def c3objs : List (Int × Obj) := [(1, c3A), (2, c3B)]

/-- C3: before the set, B resolves x to the ancestor value 7; setting the
property clear succeeds, but afterwards get_property returns the bare
Clear class instead of the ancestor value 7 (set_property writes `Clear`,
the class, and _resolve_property_value's isinstance test does not
recognise it as clear). -/
theorem C3_bug :
    get_property 8 c3objs 2 "x" = .ok (.int 7)
    ∧ (set_property 8 c3objs 2 "x" PyValue.clear).1 = Option.none
    ∧ get_property 8 (set_property 8 c3objs 2 "x" PyValue.clear).2 2 "x"
        = .ok PyValue.clearClass
    ∧ PyValue.clearClass ≠ PyValue.int 7 :=
  ⟨rfl, rfl, rfl, fun h => PyValue.noConfusion h⟩

/-- C4: a WAIF tag with flag c raises TypeError immediately after class
and owner are read: readWaif constructs Waif(_class, owner, props) with
three arguments, but Waif requires four (waif_class, owner, prop_indexes,
props), so the propdefs length, the property loop, the waifs-table store
and the terminator line of the claim are dead code. -/
theorem C4_bug :
    decodeValue "waif.db" "13\nc 0\n7\n2\n"
      = .error (.typeError "Waif.__init__() missing 1 required positional argument: props") :=
  rfl

/-- Defining object of the rename family: owns foo (position 0) and misc;
its child is object 2; its propdefs are arbitrary. -/
def c5P (pdP : List Propdef) : Obj :=
  { id := 1, name := "P", flags := 0, owner := 0,
    location := .obj (-1), parents := [],
    children := .list [.obj 2], last_move := .obj (-1),
    contents := .list [], verbs := [],
    propnames := ["foo", "misc"], propdefs := pdP,
    anon := false, recycled := false }

/-- Descendant of the rename family: owns other and a same-named foo
(position 1); its propdefs are arbitrary. -/
def c5C (pdC : List Propdef) : Obj :=
  { id := 2, name := "C", flags := 0, owner := 0,
    location := .obj (-1), parents := [.obj 1],
    children := .list [], last_move := .obj (-1),
    contents := .list [], verbs := [],
    propnames := ["other", "foo"], propdefs := pdC,
    anon := false, recycled := false }

def c5fam (pdP pdC : List Propdef) : List (Int × Obj) := [(1, c5P pdP), (2, c5C pdC)]

/-- C5 (amended): on the family c5fam — a defining object with foo at
position 0 and a descendant defining its own foo at position 1, propdefs
arbitrary — rename_property foo → bar succeeds, renames the defining
propnames slot in place, cascades to the descendant's own matching slot,
and leaves every propdefs sequence untouched (positions and values). -/
theorem C5_rename (pdP pdC : List Propdef) :
    rename_property 8 (c5fam pdP pdC) 1 "foo" "bar"
      = (Option.none,
         [(1, { c5P pdP with propnames := ["bar", "misc"] }),
          (2, { c5C pdC with propnames := ["other", "bar"] })]) := rfl

/-- Defining object of the C5 counterexample: owns foo with value 9. -/
def c5P0 : Obj :=
  { id := 1, name := "P", flags := 0, owner := 0,
    location := .obj (-1), parents := [],
    children := .list [.obj 2], last_move := .obj (-1),
    contents := .list [], verbs := [],
    propnames := ["foo"], propdefs := [⟨.int 9, 0, 0⟩],
    anon := false, recycled := false }

/-- Descendant of the C5 counterexample: resolves foo purely positionally
(own propnames empty, one clear propdefs slot). -/
def c5C0 : Obj :=
  { id := 2, name := "C", flags := 0, owner := 0,
    location := .obj (-1), parents := [.obj 1],
    children := .list [], last_move := .obj (-1),
    contents := .list [], verbs := [],
    propnames := [], propdefs := [⟨.clear, 0, 0⟩],
    anon := false, recycled := false }

def c5objs : List (Int × Obj) := [(1, c5P0), (2, c5C0)]

/-- C5: counterexample.  The descendant c5C0 resolves the property (after
the rename, get_property on it returns the defining value 9 under the new
name), yet the rename cascades nothing into it: its propnames stay empty,
so it does not "have the name new at the matching position" — the cascade
only ever renames descendants that define a same-named property of their
own, because the defining object is renamed first and the old name is no
longer findable through it. -/
theorem C5_counterexample :
    (rename_property 8 c5objs 1 "foo" "bar").1 = Option.none
    ∧ get_property 8 (rename_property 8 c5objs 1 "foo" "bar").2 2 "bar" = .ok (.int 9)
    ∧ alistGet (rename_property 8 c5objs 1 "foo" "bar").2 2 = some c5C0
    ∧ c5C0.propnames = [] :=
  ⟨rfl, rfl, rfl, rfl⟩

/-- An anonymous object with the given id and no contents of its own. -/
def c7anon (i : Int) : Obj :=
  { id := i, name := "a", flags := 0, owner := 0,
    location := .obj (-1), parents := [],
    children := .list [], last_move := .obj (-1),
    contents := .list [], verbs := [],
    propnames := [], propdefs := [],
    anon := true, recycled := false }

/-- A database holding exactly two anonymous objects and nothing else. -/
def c7db : Db :=
  { Db.init with
    versionstring := "** LambdaMOO Database, Format Version 17 **"
    version := 17
    objects := [(1, c7anon 1), (2, c7anon 2)] }

/-- Inversion of Except bind against a success result. -/
theorem except_bind_ok {α β : Type} (m : Except PyErr α) (f : α → Except PyErr β) (b : β) :
    (m >>= f) = .ok b ↔ ∃ a, m = .ok a ∧ f a = .ok b := by
  cases m with
  | error e => simp [Bind.bind, Except.bind]
  | ok a => simp [Bind.bind, Except.bind]

/-- C7 (amended): writeAnons emits a single collection — one i32 count of
all anonymous objects followed by all their object blocks — and
writeDatabase places that collection before a separate terminating zero
line and the verbs section; there is no chunk per anonymous object. -/
theorem C7_anons (vfuel cfuel : Nat) (db : Db) (out : List String)
    (hout : writeDatabase vfuel cfuel db = .ok out) :
    ∃ pre blocks verbs,
      writeAnons vfuel db
        = .ok (intToStr (((db.objects.map Prod.snd).filter fun o => o.anon).length : Int) :: blocks)
      ∧ out = pre ++ (intToStr (((db.objects.map Prod.snd).filter fun o => o.anon).length : Int) :: blocks)
          ++ [intToStr 0] ++ verbs := by
  rw [writeDatabase] at hout
  obtain ⟨players, hp, hout⟩ := (except_bind_ok _ _ _).mp hout
  obtain ⟨pending, hpe, hout⟩ := (except_bind_ok _ _ _).mp hout
  obtain ⟨clocks, hc, hout⟩ := (except_bind_ok _ _ _).mp hout
  obtain ⟨queue, hq, hout⟩ := (except_bind_ok _ _ _).mp hout
  obtain ⟨susp, hs, hout⟩ := (except_bind_ok _ _ _).mp hout
  obtain ⟨intr, hi, hout⟩ := (except_bind_ok _ _ _).mp hout
  obtain ⟨conns, hcn, hout⟩ := (except_bind_ok _ _ _).mp hout
  obtain ⟨objs, ho, hout⟩ := (except_bind_ok _ _ _).mp hout
  obtain ⟨anons, ha, hout⟩ := (except_bind_ok _ _ _).mp hout
  obtain ⟨verbs, hv, hout⟩ := (except_bind_ok _ _ _).mp hout
  rw [writeAnons] at ha
  obtain ⟨blocks, hb, ha⟩ := (except_bind_ok _ _ _).mp ha
  cases ha
  cases hout
  refine ⟨("** LambdaMOO Database, Format Version " ++ intToStr 17 ++ " **")
      :: players ++ pending ++ clocks ++ queue ++ susp ++ intr ++ conns ++ objs,
    blocks, verbs, ?_, ?_⟩
  · rw [writeAnons, hb]
    rfl
  · simp [List.append_assoc]

/-- The object block writeObject emits for c7anon i. -/
def c7block (i : Int) : List String :=
  ["#" ++ intToStr i, "a", "0", "0", "1", "-1", "1", "-1", "4", "0", "4", "0", "4", "0",
   "0", "0", "0"]

/-- The full dump of c7db: all sections empty except the single
anonymous-object collection, whose count line 2 covers both objects. -/
def c7dump : List String :=
  ["** LambdaMOO Database, Format Version 17 **", "0",
   "0 values pending finalization", "0 clocks", "0 queued tasks",
   "0 suspended tasks", "0 interrupted tasks",
   "0 active connections with listeners", "0"]
  ++ ("2" :: (c7block 1 ++ c7block 2))
  ++ ["0", "0"]

/-- C7: counterexample.  With two anonymous objects the writer emits one
collection introduced by the single count line 2 followed by both object
blocks — not one chunk per anonymous object. -/
theorem C7_counterexample :
    writeAnons 4 c7db = .ok ("2" :: (c7block 1 ++ c7block 2))
    ∧ writeDatabase 4 4 c7db = .ok c7dump :=
  ⟨rfl, rfl⟩

/-- Witness for C7_anons at the concrete two-anon database c7db. -/
theorem C7_witness :
    ∃ pre blocks verbs,
      writeAnons 4 c7db
        = .ok (intToStr (((c7db.objects.map Prod.snd).filter fun o => o.anon).length : Int) :: blocks)
      ∧ c7dump = pre ++ (intToStr (((c7db.objects.map Prod.snd).filter fun o => o.anon).length : Int) :: blocks)
          ++ [intToStr 0] ++ verbs :=
  C7_anons 4 4 c7db c7dump rfl

/-- C6: counterexample.  The two-field form start_time id of the claim is
not accepted: the compiled suspended_task_header template has three
fields, so the line 100 5 fails the match and readSuspendedTask raises
the Bad suspended task header parse error. -/
theorem C6_counterexample :
    readSuspendedTask "db.moo" 8 8 17 ⟨["100 5"], 0⟩
      = .error (.exception "Parse Error: db.moo:1 : Bad suspended task header") := rfl

/-- C6 (amended): no two-field header of the form {start_time} {id}
matches the suspended_task_header template; the three-field form is
accepted, its third field is forced as the value tag — no tag line is
consumed for the value — and the VM follows: on header 100 7 5 the value
is read as Clear from tag 5 alone, and lines 6 and -1 0 0 1 make the
VM (None locals, empty stack). -/
theorem C6_header :
    (∀ a b : Int, matchSuspHeader (intToStr a ++ " " ++ intToStr b) = Option.none)
    ∧ readSuspendedTask "db.moo" 8 8 17 ⟨["100 7 5", "6", "-1 0 0 1"], 0⟩
      = .ok (⟨0, 7, 100, .clear, ⟨.none, [], -1, 0, 0, 1⟩⟩, ⟨[], 3⟩) := by
  constructor
  · intro a b
    rw [matchSuspHeader, splitSp_pair _ _ (intToStr_noSpace a) (intToStr_noSpace b)]
    simp [pyIntOf?_intToStr]
  · rfl

/-- C8: with a well-formed version header declaring any integer other
than 4 and 17, parse stops at version detection with the Unknown db
version parse error (filename and line 1 in the message), producing no
database. -/
theorem C8_unknown_version (fn : String) (vfuel cfuel afuel : Nat) (v : Int)
    (rest : List String) (n : Nat) (h4 : v ≠ 4) (h17 : v ≠ 17) :
    parse fn vfuel cfuel afuel
        ⟨("** LambdaMOO Database, Format Version " ++ intToStr v ++ " **") :: rest, n⟩
      = .error (.exception ("Parse Error: " ++ fn ++ ":" ++ natToStr (n + 1)
        ++ " : Unknown db version " ++ intToStr v)) := by
  rw [parse]
  simp only [RM_run_bind, readString_cons, matchVersion, matchOneInt_format]
  rw [if_neg h4, if_neg h17]
  rw [parseError]
  simp only [String.append_assoc]
  rfl

/-- Witness for C8_unknown_version at version 5. -/
theorem C8_witness :
    parse "db.moo" 2 2 2 ⟨["** LambdaMOO Database, Format Version 5 **"], 0⟩
      = .error (.exception "Parse Error: db.moo:1 : Unknown db version 5")
    ∧ (5 : Int) ≠ 4 ∧ (5 : Int) ≠ 17 :=
  ⟨C8_unknown_version "db.moo" 2 2 2 5 [] 0 (by decide) (by decide),
   by decide, by decide⟩

/-- C9: counterexample.  A non-integer line where readInt expects an
integer (here the player count of a version-17 file) raises the bare
int() ValueError: the message carries neither the filename nor the line
number (which would be 2). -/
theorem C9_counterexample :
    load "db.moo" "** LambdaMOO Database, Format Version 17 **\nxyz\n"
      = .error (.valueError "invalid literal for int() with base 10: xyz")
    ∧ strHas "invalid literal for int() with base 10: xyz" "db.moo" = false
    ∧ strHas "invalid literal for int() with base 10: xyz" "2" = false :=
  ⟨rfl, by decide, by decide⟩

/-- C9 (amended): failures raised through parse_error do carry the
filename and the current line number in the exact format
Parse Error: filename:line : message — shown here for the Invalid
version string failure on any non-matching first line. -/
theorem C9_parse_error (fn : String) (vfuel cfuel afuel : Nat) (junk : String)
    (rest : List String) (n : Nat) (hjunk : matchVersion junk = Option.none) :
    parse fn vfuel cfuel afuel ⟨junk :: rest, n⟩
      = .error (.exception ("Parse Error: " ++ fn ++ ":" ++ natToStr (n + 1)
          ++ " : Invalid version string")) := by
  rw [parse]
  simp only [RM_run_bind, readString_cons, hjunk]
  rw [parseError]
  simp only [String.append_assoc]
  rfl

/-- Witness for C9_parse_error on the first line hello. -/
theorem C9_witness :
    parse "db.moo" 1 1 1 ⟨["hello"], 0⟩
      = .error (.exception "Parse Error: db.moo:1 : Invalid version string") :=
  C9_parse_error "db.moo" 1 1 1 "hello" [] 0 rfl

/-- C10: get_property, set_property and rename_property raise ValueError
— not a parse error — when the object id is missing from the objects
table or when the property name resolves neither on the object nor on any
ancestor, and in each such failing call the objects table is returned
unchanged: these raises happen before any write. -/
theorem C10_errors (fuel : Nat) (objs : List (Int × Obj)) (oid : Int)
    (name old new : String) (value : PyValue) :
    (alistGet objs oid = Option.none →
      get_property fuel objs oid name
          = .error (.valueError ("Object " ++ intToStr oid ++ " not found"))
        ∧ set_property fuel objs oid name value
          = (some (.valueError ("Object " ++ intToStr oid ++ " not found")), objs)
        ∧ rename_property fuel objs oid old new
          = (some (.valueError ("Object " ++ intToStr oid ++ " not found")), objs))
    ∧ (∀ o, alistGet objs oid = some o →
        (findPropIdx objs fuel o name = .ok Option.none →
          get_property fuel objs oid name
              = .error (.valueError ("Property " ++ name ++ " not defined on object "
                ++ intToStr oid ++ " or its ancestors"))
            ∧ set_property fuel objs oid name value
              = (some (.valueError ("Property " ++ name ++ " not defined on object "
                ++ intToStr oid ++ " or its ancestors")), objs))
        ∧ (findPropIdx objs fuel o old = .ok Option.none →
          rename_property fuel objs oid old new
            = (some (.valueError ("Property " ++ old ++ " not found on object "
              ++ intToStr oid)), objs))) := by
  constructor
  · intro h
    refine ⟨?_, ?_, ?_⟩
    · rw [get_property, h]
    · rw [set_property, h]
    · rw [rename_property, h]
  · intro o ho
    constructor
    · intro hfi
      constructor
      · rw [get_property, ho]
        simp only [hfi]
      · rw [set_property, ho]
        simp only [hfi]
    · intro hfi
      rw [rename_property, ho]
      simp only [hfi]

/-- The only object of the C10 witness database: one own property p, no
parents. -/
def c10o : Obj :=
  { id := 1, name := "o", flags := 0, owner := 0,
    location := .obj (-1), parents := [],
    children := .list [], last_move := .obj (-1),
    contents := .list [], verbs := [],
    propnames := ["p"], propdefs := [⟨.int 1, 0, 0⟩],
    anon := false, recycled := false }

/-- Witness for C10_errors: object 5 is missing from the one-object
table, and the names zzz and qqq resolve nowhere on object 1. -/
theorem C10_witness :
    get_property 4 [(1, c10o)] 5 "p" = .error (.valueError "Object 5 not found")
    ∧ set_property 4 [(1, c10o)] 5 "p" (.int 0)
        = (some (.valueError "Object 5 not found"), [(1, c10o)])
    ∧ get_property 4 [(1, c10o)] 1 "zzz"
        = .error (.valueError "Property zzz not defined on object 1 or its ancestors")
    ∧ rename_property 4 [(1, c10o)] 1 "qqq" "r"
        = (some (.valueError "Property qqq not found on object 1"), [(1, c10o)]) := by
  have h1 := (C10_errors 4 [(1, c10o)] 5 "p" "p" "r" (.int 0)).1 rfl
  have h2 := ((C10_errors 4 [(1, c10o)] 1 "zzz" "qqq" "r" (.int 0)).2 c10o rfl).1 rfl
  have h3 := ((C10_errors 4 [(1, c10o)] 1 "zzz" "qqq" "r" (.int 0)).2 c10o rfl).2 rfl
  exact ⟨h1.1, h1.2.1, h2.1, h3⟩
